import Mathlib

/-!
Verification of the data-standardization and station-merge core of the
`medical_lock_hospitals` repository.

Python strings are modelled as lists of code points (`List Nat`), with the
ASCII semantics of `str.lower`, `str.strip`, `str.title`, `str.split`,
substring membership (`in`) and `LIKE 'p%'` matching.  Absent values
(Python `None` / SQL NULL) are modelled with `Option`.
-/

/-- A Python string: its list of code points. -/
abbrev PyStr := List Nat

/-- Embed a Lean string literal as a `PyStr`. -/
def lit (s : String) : PyStr := s.data.map Char.toNat

/-- Python whitespace characters (the set stripped by `str.strip()` and
split on by `str.split()`). -/
def isSpace (c : Nat) : Bool := c == 32 || c == 9 || c == 10 || c == 13 || c == 11 || c == 12

/-- ASCII uppercase letter. -/
def isUpper (c : Nat) : Bool := 65 ≤ c && c ≤ 90

/-- ASCII lowercase letter. -/
def isLowerCh (c : Nat) : Bool := 97 ≤ c && c ≤ 122

/-- ASCII alphabetic character (`str.isalpha` on ASCII; for ASCII the
"cased" characters used by `str.title` word boundaries coincide). -/
def isAlpha (c : Nat) : Bool := isUpper c || isLowerCh c

/-- One character of `str.lower()` (ASCII). -/
def lowerChar (c : Nat) : Nat := if isUpper c then c + 32 else c

/-- One character of `str.upper()` (ASCII). -/
def upperChar (c : Nat) : Nat := if isLowerCh c then c - 32 else c

/-- `str.lower()`. -/
def pyLower (s : PyStr) : PyStr := s.map lowerChar

/-- `str.strip()`: drop whitespace from both ends. -/
def pyStrip (s : PyStr) : PyStr :=
  ((s.dropWhile (fun c => isSpace c)).reverse.dropWhile (fun c => isSpace c)).reverse

/-- `s.startswith(p)` / SQL `s LIKE 'p%'`: `p` begins `s`. -/
def startsWith : PyStr → PyStr → Bool
  | _, [] => true
  | [], _ :: _ => false
  | c :: cs, p :: ps => c == p && startsWith cs ps

/-- Python `needle in hay` (substring containment). -/
def pyIn (needle : PyStr) : PyStr → Bool
  | [] => needle.isEmpty
  | c :: t => startsWith (c :: t) needle || pyIn needle t

/-- One character of `str.title()`: `b` says whether the previous character
was a letter; a letter after a letter is lowercased, a letter after a
non-letter is uppercased, non-letters pass through. -/
def titleChar (b : Bool) (c : Nat) : Nat :=
  if isAlpha c then (if b then lowerChar c else upperChar c) else c

/-- `str.title()` on ASCII: a letter is uppercased when the previous
character is not a letter, lowercased otherwise; non-letters pass through.
The accumulator records whether the previous character was a letter. -/
def pyTitleAux : Bool → PyStr → PyStr
  | _, [] => []
  | prev, c :: cs => titleChar prev c :: pyTitleAux (isAlpha c) cs

/-- `str.title()`. -/
def pyTitle (s : PyStr) : PyStr := pyTitleAux false s

/-- `str.split()` (no separator): whitespace-separated words, no empties.
The accumulator holds the current word reversed. -/
def pySplitAux : PyStr → PyStr → List PyStr
  | [], acc => if acc.isEmpty then [] else [acc.reverse]
  | c :: cs, acc =>
    if isSpace c then
      (if acc.isEmpty then pySplitAux cs [] else acc.reverse :: pySplitAux cs [])
    else pySplitAux cs (c :: acc)

/-- `str.split()`. -/
def pySplit (s : PyStr) : List PyStr := pySplitAux s []

/-- `' '.join(ws)`. -/
def joinSpace : List PyStr → PyStr
  | [] => []
  | [w] => w
  | w :: ws => w ++ 32 :: joinSpace ws

namespace StandardizeData
/-!
`src/archive/python_tools/standardize_data.py`.

Each normalizer takes `Option PyStr` (`none` = Python `None`).  The guard
`if not value` treats both `None` and the empty string as absent.
-/

/-- `standardize_class` from `standardize_data.py`. -/
def standardize_class : Option PyStr → Option PyStr
  | none => none
  | some v =>
    if v.isEmpty then none
    else
      let value := pyStrip (pyLower v)
      if pyIn (lit "first") value || pyIn (lit "1st") value then some (lit "First Class")
      else if pyIn (lit "second") value || pyIn (lit "2nd") value then some (lit "Second Class")
      else if pyIn (lit "third") value || pyIn (lit "3rd") value then some (lit "Third Class")
      else if pyIn (lit "military") value then some (lit "Military")
      else if pyIn (lit "civil") value then some (lit "Civil")
      else some (pyTitle value)

/-- `standardize_act` from `standardize_data.py`. -/
def standardize_act : Option PyStr → Option PyStr
  | none => none
  | some v =>
    if v.isEmpty then none
    else
      let value := pyStrip (pyLower v)
      if pyIn (lit "xiv") value && pyIn (lit "1868") value then some (lit "Act XIV of 1868")
      else if pyIn (lit "xxii") value && pyIn (lit "1864") value then some (lit "Act XXII of 1864")
      else if pyIn (lit "iii") value && pyIn (lit "1880") value then some (lit "Act III of 1880")
      else if pyIn (lit "xii") value && pyIn (lit "1864") value then some (lit "Act XII of 1864")
      else if pyIn (lit "voluntary") value then some (lit "Voluntary System")
      else some (pyTitle value)

/-- `standardize_country` from `standardize_data.py`. -/
def standardize_country : Option PyStr → Option PyStr
  | none => none
  | some v =>
    if v.isEmpty then none
    else
      let value := pyStrip (pyLower v)
      if pyIn (lit "british india") value then some (lit "British India")
      else if pyIn (lit "burma") value then some (lit "British Burma")
      else some (pyTitle value)

/-- `standardize_region` from `standardize_data.py`. -/
def standardize_region : Option PyStr → Option PyStr
  | none => none
  | some v =>
    if v.isEmpty then none
    else
      let value := pyStrip (pyLower v)
      if pyIn (lit "madras") value then some (lit "Madras Presidency")
      else if pyIn (lit "burma") value then some (lit "Burma")
      else if pyIn (lit "punjab") value then some (lit "Punjab")
      else if pyIn (lit "central provinces") value then some (lit "Central Provinces")
      else if pyIn (lit "north-western provinces") value || pyIn (lit "oudh") value then
        some (lit "North-Western Provinces & Oudh")
      else some (pyTitle value)

end StandardizeData

namespace AnalyzeOps
/-!
`src/analyze_hospital_ops.py`.

Here the absence guard is `pd.isna(value)`, which is true only for `None`
(and NaN); the empty string is processed like any other string.
-/

/-- `standardize_class` from `analyze_hospital_ops.py`. -/
def standardize_class : Option PyStr → Option PyStr
  | none => none
  | some v =>
    let value := pyStrip (pyLower v)
    if pyIn (lit "first") value || pyIn (lit "1st") value then some (lit "First Class")
    else if pyIn (lit "second") value || pyIn (lit "2nd") value then some (lit "Second Class")
    else if pyIn (lit "third") value || pyIn (lit "3rd") value then some (lit "Third Class")
    else if pyIn (lit "military") value then some (lit "Military")
    else if pyIn (lit "civil") value then some (lit "Civil")
    else some (pyTitle value)

/-- `standardize_act` from `analyze_hospital_ops.py`. -/
def standardize_act : Option PyStr → Option PyStr
  | none => none
  | some v =>
    let value := pyStrip (pyLower v)
    if pyIn (lit "xiv") value && pyIn (lit "1868") value then some (lit "Act XIV of 1868")
    else if pyIn (lit "xxii") value && pyIn (lit "1864") value then some (lit "Act XXII of 1864")
    else if pyIn (lit "iii") value && pyIn (lit "1880") value then some (lit "Act III of 1880")
    else some (pyTitle value)

/-- `clean_text` from `analyze_hospital_ops.py`: collapse whitespace runs
to single spaces and trim ends; `None`-preserving. -/
def clean_text : Option PyStr → Option PyStr
  | none => none
  | some t => some (pyStrip (joinSpace (pySplit t)))

end AnalyzeOps

/-- The ordered rule tests of the class normalizer (both copies share them),
evaluated on the lowered-and-stripped key of the input, in source order. -/
def classRuleTest (v : PyStr) : List Bool :=
  [pyIn (lit "first") (pyStrip (pyLower v)) || pyIn (lit "1st") (pyStrip (pyLower v)),
   pyIn (lit "second") (pyStrip (pyLower v)) || pyIn (lit "2nd") (pyStrip (pyLower v)),
   pyIn (lit "third") (pyStrip (pyLower v)) || pyIn (lit "3rd") (pyStrip (pyLower v)),
   pyIn (lit "military") (pyStrip (pyLower v)),
   pyIn (lit "civil") (pyStrip (pyLower v))]

/-- The outputs of the class-normalizer rules, in source order. -/
def classRuleOut : List PyStr :=
  [lit "First Class", lit "Second Class", lit "Third Class", lit "Military", lit "Civil"]

/-- No two consecutive characters are both ASCII uppercase.  Every
`str.title()` output satisfies this; `"Act XIV of 1868"` does not. -/
def noTwoUpper : PyStr → Bool
  | c1 :: c2 :: rest => !(isUpper c1 && isUpper c2) && noTwoUpper (c2 :: rest)
  | _ => true

/-!
## Database model for `src/python_tools/update_standardizations.py`

Only the columns the script reads or writes are modelled: a station's id,
name and coordinates; a station report's id and station id; and the
`station` text column of each of the five fact tables (one `PyStr` per
row).  SQL `REAL` coordinate constants are carried as exact rationals —
the script only stores them, never computes with them.
-/

structure Station where
  station_id : Nat
  name : PyStr
  latitude : Option Rat
  longitude : Option Rat
deriving DecidableEq

structure Report where
  report_id : Nat
  station_id : Nat
deriving DecidableEq

structure DB where
  stations : List Station
  station_reports : List Report
  hospital_operations : List PyStr
  women_admission : List PyStr
  women_data : List PyStr
  troops : List PyStr
  troop_data : List PyStr
deriving DecidableEq

/-- `cur.execute("UPDATE ... SET ... WHERE p")`: apply `f` to every row
matching `p`; `cur.rowcount` is the number of matched rows. -/
def updateCount (p : α → Bool) (f : α → α) (l : List α) : List α × Nat :=
  (l.map (fun x => if p x then f x else x), (l.filter p).length)

/-- The three Rangoon updates the script runs on one fact table's station
column, in source order: exact lower-case match, the `+G143` literal, then
the `LIKE 'india (british burma)%'` sweep.  Returns the new rows and
`rc1 + rc2 + rc3`. -/
def rangoonFixTable (rows : List PyStr) : List PyStr × Nat :=
  let r1 := updateCount (fun s => pyLower s == lit "india (british burma)")
    (fun _ => lit "Rangoon") rows
  let r2 := updateCount (fun s => s == lit "India (British Burma)+G143")
    (fun _ => lit "Rangoon") r1.1
  let r3 := updateCount (fun s => startsWith (pyLower s) (lit "india (british burma)"))
    (fun _ => lit "Rangoon") r2.1
  (r3.1, r1.2 + r2.2 + r3.2)

structure MergeState where
  stations : List Station
  station_reports : List Report
  merged : List Nat
  renamed : List Nat
deriving DecidableEq

/-- One iteration of the script's Rangoon stations loop.  With an anchor id
(computed once, before the loop) the variant's reports are repointed to it
and the variant row deleted; with no anchor the variant is renamed to
`'Rangoon'` — the anchor lookup is never refreshed inside the loop.  The
rename `UPDATE` is subject to the `stations.name TEXT UNIQUE NOT NULL`
constraint of `create_database.py`; this unchecked version performs it
unconditionally and therefore describes exactly the runs that complete
(an anchor present, or at most one rename executed) — `rangoonMergeStepE`
is the constraint-checked variant, on which a second rename raises
`sqlite3.IntegrityError` and aborts the run. -/
def rangoonMergeStep (rangoonId : Option Nat) (st : MergeState) (oldId : Nat) : MergeState :=
  match rangoonId with
  | some rid =>
    { stations := st.stations.filter (fun s => s.station_id != oldId)
      station_reports := st.station_reports.map
        (fun r => if r.station_id = oldId then { r with station_id := rid } else r)
      merged := st.merged ++ [oldId]
      renamed := st.renamed }
  | none =>
    { stations := st.stations.map
        (fun s => if s.station_id = oldId then { s with name := lit "Rangoon" } else s)
      station_reports := st.station_reports
      merged := st.merged
      renamed := st.renamed ++ [oldId] }

/-- Step 2 of the script on the stations table: look up an existing
`'Rangoon'` anchor, snapshot every `LIKE 'india (british burma)%'` row,
then run the merge/rename loop over the snapshot. -/
def rangoonMergeStations (stations : List Station) (reports : List Report) : MergeState :=
  ((stations.filter
    (fun s => startsWith (pyLower s.name) (lit "india (british burma)"))).map
      Station.station_id).foldl
    (rangoonMergeStep ((stations.find? (fun s => s.name == lit "Rangoon")).map Station.station_id))
    ⟨stations, reports, [], []⟩

structure CoordsState where
  stations : List Station
  station_reports : List Report
  canonicalId : Option Nat
  merged : List Nat
  promoted : List Nat
deriving DecidableEq

/-- One iteration of the `set_coords` merge loop over one matched variant:
with no canonical row yet, the variant is renamed to the canonical name
and becomes the canonical; otherwise its reports are repointed to the
canonical id and its row deleted. -/
def coordsMergeStep (newName : PyStr) (cs : CoordsState) (oldId : Nat) : CoordsState :=
  match cs.canonicalId with
  | none =>
    { cs with
      stations := cs.stations.map
        (fun s => if s.station_id = oldId then { s with name := newName } else s)
      canonicalId := some oldId
      promoted := cs.promoted ++ [oldId] }
  | some cid =>
    { cs with
      stations := cs.stations.filter (fun s => s.station_id != oldId)
      station_reports := cs.station_reports.map
        (fun r => if r.station_id = oldId then { r with station_id := cid } else r)
      merged := cs.merged ++ [oldId] }

/-- Process one variant condition of `set_coords`: snapshot the matching
rows (condition holds and name differs from canonical), then merge them
one by one. -/
def coordsCond (newName : PyStr) (cond : PyStr → Bool) (cs : CoordsState) : CoordsState :=
  let hits := (cs.stations.filter
    (fun s => cond s.name && s.name != newName)).map Station.station_id
  hits.foldl (coordsMergeStep newName) cs

structure CoordsResult where
  db : DB
  merged : List Nat
  promoted : List Nat
  coordCount : Nat
  factCounts : List Nat

/-- Run the per-condition fact-table updates of `set_coords` on one
table's rows (inner loop over the conditions), collecting the rowcounts. -/
def coordsFactFix (conds : List (PyStr → Bool)) (newName : PyStr) (rows : List PyStr) :
    List PyStr × List Nat :=
  conds.foldl (fun (acc : List PyStr × List Nat) cond =>
    let u := updateCount cond (fun _ => newName) acc.1
    (u.1, acc.2 ++ [u.2])) (rows, [])

/-- `set_coords` from `update_standardizations.py`: canonical lookup, the
merge loop per condition, the coordinate update on rows bearing the
canonical name, and the per-table/per-condition fact updates. -/
def set_coords (conds : List (PyStr → Bool)) (newName : PyStr) (lat lon : Rat) (db : DB) :
    CoordsResult :=
  let canonicalId := (db.stations.find? (fun s => s.name == newName)).map Station.station_id
  let st1 := conds.foldl (fun cs cond => coordsCond newName cond cs)
    ⟨db.stations, db.station_reports, canonicalId, [], []⟩
  let coordsUpd := updateCount (fun s => s.name == newName)
    (fun s => { s with latitude := some lat, longitude := some lon }) st1.stations
  let ho := coordsFactFix conds newName db.hospital_operations
  let wa := coordsFactFix conds newName db.women_admission
  let wd := coordsFactFix conds newName db.women_data
  let tr := coordsFactFix conds newName db.troops
  let td := coordsFactFix conds newName db.troop_data
  { db := { stations := coordsUpd.1, station_reports := st1.station_reports,
            hospital_operations := ho.1, women_admission := wa.1, women_data := wd.1,
            troops := tr.1, troop_data := td.1 },
    merged := st1.merged, promoted := st1.promoted,
    coordCount := coordsUpd.2,
    factCounts := ho.2 ++ wa.2 ++ wd.2 ++ tr.2 ++ td.2 }

/-- The two variant conditions of the one `set_coords` call in the script. -/
def sitabaldiConds : List (PyStr → Bool) :=
  [fun n => startsWith (pyLower n) (lit "seetabuldee"),
   fun n => startsWith (pyLower n) (lit "sitabaldi")]

/-- The canonical name of the one `set_coords` call in the script. -/
def sitabaldiName : PyStr := lit "Sitabaldi (Nagpur)"

/-- Step 4 of the script: name-pattern conditions with the coordinates to
set, in source (dict-insertion) order. -/
def coordFixes : List ((PyStr → Bool) × Rat × Rat) :=
  [(fun n => startsWith (pyLower n) (lit "tonghoo"), 18.9398, 96.4344),
   (fun n => startsWith (pyLower n) (lit "jubbulpore"), 23.1686, 79.9339),
   (fun n => startsWith (pyLower n) (lit "muttra"), 27.4924, 77.6737),
   (fun n => startsWith (pyLower n) (lit "umballa"), 30.3752, 76.7821),
   (fun n => startsWith (pyLower n) (lit "meean meer"), 31.5484, 74.3602),
   (fun n => startsWith (pyLower n) (lit "fyzabad"), 26.7730, 82.1458),
   (fun n => startsWith (pyLower n) (lit "mooltan"), 30.1979793, 71.4724978)]

/-- Run the step-4 coordinate fixes over the stations, collecting the
per-condition rowcounts. -/
def coordFixesRun (stations : List Station) : List Station × List Nat :=
  coordFixes.foldl (fun (acc : List Station × List Nat) fix =>
    let u := updateCount (fun s => fix.1 s.name)
      (fun s => { s with latitude := some fix.2.1, longitude := some fix.2.2 }) acc.1
    (u.1, acc.2 ++ [u.2])) (stations, [])

structure PassResult where
  db : DB
  rangoonFactCounts : List Nat
  rangoonMerged : List Nat
  rangoonRenamed : List Nat
  scMerged : List Nat
  scPromoted : List Nat
  scCoordCount : Nat
  scFactCounts : List Nat
  step4Counts : List Nat

/-- The whole update pass of `update_standardizations.py`, in source
order: Rangoon fact-table updates, the Rangoon stations merge, the
Sitabaldi `set_coords` call, and the step-4 coordinate fixes.  All
reported rowcounts and the per-row merge/rename logs (the script's
prints) are returned alongside the final database state. -/
def runPass (db : DB) : PassResult :=
  let ho := rangoonFixTable db.hospital_operations
  let wa := rangoonFixTable db.women_admission
  let wd := rangoonFixTable db.women_data
  let tr := rangoonFixTable db.troops
  let td := rangoonFixTable db.troop_data
  let ms := rangoonMergeStations db.stations db.station_reports
  let db1 : DB := { stations := ms.stations, station_reports := ms.station_reports,
                    hospital_operations := ho.1, women_admission := wa.1, women_data := wd.1,
                    troops := tr.1, troop_data := td.1 }
  let sc := set_coords sitabaldiConds sitabaldiName 21.1430 79.0871 db1
  let s4 := coordFixesRun sc.db.stations
  { db := { sc.db with stations := s4.1 },
    rangoonFactCounts := [ho.2, wa.2, wd.2, tr.2, td.2],
    rangoonMerged := ms.merged, rangoonRenamed := ms.renamed,
    scMerged := sc.merged, scPromoted := sc.promoted,
    scCoordCount := sc.coordCount, scFactCounts := sc.factCounts,
    step4Counts := s4.2 }

/-- Station id `b` is referenced by no station row and no report row. -/
def NotRef (b : Nat) (stations : List Station) (reports : List Report) : Prop :=
  (∀ s ∈ stations, s.station_id ≠ b) ∧ (∀ r ∈ reports, r.station_id ≠ b)

/-- Repoint a report to `p` when its station id lies in `S`. -/
def retarget (S : List Nat) (p : Nat) (r : Report) : Report :=
  if r.station_id ∈ S then { r with station_id := p } else r

/-- Invariant carried through the `set_coords` merge loop: station ids
stay duplicate-free; every id merged so far (and every id `M0` merged by
an earlier phase) is referenced by no station and no report; a canonical
id always denotes a present station bearing the canonical name; the
reports are exactly the initial reports `rp0` with all merged ids
repointed to the canonical id; while no canonical exists nothing has been
merged; and relative to the initial canonical `c0`, either the canonical
never changes (anchor case) or at most one promotion has happened. -/
def CInv (newName : PyStr) (M0 : List Nat) (rp0 : List Report) (c0 : Option Nat)
    (cs : CoordsState) : Prop :=
  (cs.stations.map Station.station_id).Nodup ∧
  (∀ b ∈ M0 ++ cs.merged, NotRef b cs.stations cs.station_reports) ∧
  (∀ cid, cs.canonicalId = some cid →
    ∃ s ∈ cs.stations, s.station_id = cid ∧ s.name = newName) ∧
  (∀ cid, cs.canonicalId = some cid →
    cs.station_reports = rp0.map (retarget cs.merged cid)) ∧
  (cs.canonicalId = none → cs.merged = [] ∧ cs.station_reports = rp0 ∧ cs.promoted = []) ∧
  (match c0 with
   | some c0v => cs.canonicalId = some c0v ∧ cs.promoted = []
   | none => cs.canonicalId = none ∨ ∃ p, cs.canonicalId = some p ∧ cs.promoted = [p])

/-- The state of the `set_coords` merge loop after all conditions are
processed (before the coordinate and fact-table updates). -/
def scLoopState (conds : List (PyStr → Bool)) (newName : PyStr) (db : DB) : CoordsState :=
  conds.foldl (fun cs cond => coordsCond newName cond cs)
    ⟨db.stations, db.station_reports,
      (db.stations.find? (fun s => s.name == newName)).map Station.station_id, [], []⟩

/-- The database state after the Rangoon phase of the pass (fact-table
updates plus the stations merge), before `set_coords` runs. -/
def rangoonPhase (db : DB) : DB :=
  { stations := (rangoonMergeStations db.stations db.station_reports).stations,
    station_reports := (rangoonMergeStations db.stations db.station_reports).station_reports,
    hospital_operations := (rangoonFixTable db.hospital_operations).1,
    women_admission := (rangoonFixTable db.women_admission).1,
    women_data := (rangoonFixTable db.women_data).1,
    troops := (rangoonFixTable db.troops).1,
    troop_data := (rangoonFixTable db.troop_data).1 }

/-- A small concrete database: a Rangoon anchor, one Burma variant with a
report, one Seetabuldee variant with a report, and a Tonghoo station. -/
def c1SampleDB : DB :=
  { stations := [⟨1, lit "Rangoon", none, none⟩, ⟨2, lit "India (British Burma)", none, none⟩,
                 ⟨3, lit "Seetabuldee", none, none⟩, ⟨4, lit "Tonghoo", none, none⟩],
    station_reports := [⟨1, 2⟩, ⟨2, 3⟩],
    hospital_operations := [lit "India (British Burma)", lit "Seetabuldee"],
    women_admission := [], women_data := [], troops := [], troop_data := [] }

/-- Two Burma variants and no pre-existing Rangoon anchor. -/
def c2SampleStations : List Station :=
  [⟨1, lit "India (British Burma)", none, none⟩,
   ⟨2, lit "India (British Burma)+G143", none, none⟩]

/-- A report referencing the second Burma variant. -/
def c2SampleReports : List Report := [⟨1, 2⟩]

/-- SQLite errors this program can raise: the `stations.name` UNIQUE
constraint violation. -/
inductive SqlError where
  | integrityError : SqlError
deriving DecidableEq

instance exceptDecEq {e a : Type} [DecidableEq e] [DecidableEq a] :
    DecidableEq (Except e a)
  | Except.error e1, Except.error e2 =>
    if h : e1 = e2 then isTrue (h ▸ rfl)
    else isFalse (fun hc => h (Except.error.inj hc))
  | Except.error _, Except.ok _ => isFalse (fun hc => Except.noConfusion hc)
  | Except.ok _, Except.error _ => isFalse (fun hc => Except.noConfusion hc)
  | Except.ok a1, Except.ok a2 =>
    if h : a1 = a2 then isTrue (h ▸ rfl)
    else isFalse (fun hc => h (Except.ok.inj hc))

/-- The Rangoon duplicate snapshot, as ids:
`SELECT station_id, name FROM stations WHERE LOWER(name) LIKE
'india (british burma)%'`. -/
def rangoonDupsOf (stations : List Station) : List Nat :=
  (stations.filter
    (fun s => startsWith (pyLower s.name) (lit "india (british burma)"))).map
      Station.station_id

/-- `UPDATE stations SET name = ? WHERE station_id = ?` under the
`stations.name TEXT UNIQUE NOT NULL` constraint declared by
`create_database.py`: the update raises `sqlite3.IntegrityError` iff a
row other than the updated one already bears the new name. -/
def renameChecked (newName : PyStr) (oldId : Nat) (stations : List Station) :
    Except SqlError (List Station) :=
  if stations.any (fun s => s.station_id != oldId && s.name == newName) then
    Except.error SqlError.integrityError
  else
    Except.ok (stations.map
      (fun s => if s.station_id = oldId then { s with name := newName } else s))

/-- One iteration of the Rangoon stations loop with the UNIQUE constraint
on `stations.name` enforced: the anchor branch merges exactly as in
`rangoonMergeStep`; the no-anchor branch attempts the rename, and an
IntegrityError aborts the run (the script has no handler, so the
transaction is never committed). -/
def rangoonMergeStepE (rangoonId : Option Nat) (st : MergeState) (oldId : Nat) :
    Except SqlError MergeState :=
  match rangoonId with
  | some rid =>
    Except.ok
      { stations := st.stations.filter (fun s => s.station_id != oldId)
        station_reports := st.station_reports.map
          (fun r => if r.station_id = oldId then { r with station_id := rid } else r)
        merged := st.merged ++ [oldId]
        renamed := st.renamed }
  | none =>
    match renameChecked (lit "Rangoon") oldId st.stations with
    | Except.error e => Except.error e
    | Except.ok st2 =>
      Except.ok
        { stations := st2
          station_reports := st.station_reports
          merged := st.merged
          renamed := st.renamed ++ [oldId] }

/-- The Rangoon stations merge with the `stations.name` UNIQUE constraint
enforced: anchor lookup once, duplicate snapshot, then the loop.
`Except.error` means the run dies with `sqlite3.IntegrityError`, so the
transaction is never committed. -/
def rangoonMergeStationsE (stations : List Station) (reports : List Report) :
    Except SqlError MergeState :=
  (rangoonDupsOf stations).foldlM
    (rangoonMergeStepE
      ((stations.find? (fun s => s.name == lit "Rangoon")).map Station.station_id))
    ⟨stations, reports, [], []⟩

/-- A single Burma variant and no pre-existing Rangoon anchor. -/
def c2SingleStations : List Station := [⟨5, lit "India (British Burma)", none, none⟩]

/-- A report referencing the single Burma variant. -/
def c2SingleReports : List Report := [⟨1, 5⟩]

/-- A database with two Sitabaldi variants and no canonical row. -/
def c2WitnessDB : DB :=
  { stations := [⟨1, lit "Seetabuldee", none, none⟩, ⟨2, lit "Sitabaldi Old", none, none⟩],
    station_reports := [⟨1, 2⟩],
    hospital_operations := [], women_admission := [], women_data := [],
    troops := [], troop_data := [] }

/-- Apply the step-4 coordinate fixes to one station row, in order (the
fixes are pointwise, so the phase is the map of this function). -/
def applyFixes (fixes : List ((PyStr → Bool) × Rat × Rat)) (s : Station) : Station :=
  fixes.foldl (fun s fix =>
    if fix.1 s.name then { s with latitude := some fix.2.1, longitude := some fix.2.2 } else s) s

/-- The coordinates of the last fix in the list matching the name, if any. -/
def lastMatch (name : PyStr) : List ((PyStr → Bool) × Rat × Rat) → Option (Rat × Rat)
  | [] => none
  | f :: rest =>
    match lastMatch name rest with
    | some c => some c
    | none => if f.1 name then some f.2 else none

/-- A database holding one Tonghoo station: the pass re-matches it on
every run, so the second run still reports one row affected. -/
def c8SampleDB : DB :=
  { stations := [⟨1, lit "Tonghoo", none, none⟩],
    station_reports := [], hospital_operations := [], women_admission := [],
    women_data := [], troops := [], troop_data := [] }

/-- Filesystem and database effects of one script run, in program order:
backup-directory creation, the `shutil.copy2` database-file backup,
database reads (`SELECT` / `PRAGMA`) and database writes
(`UPDATE` / `DELETE` / `DROP` / `CREATE` / `INSERT`).  A maximal run of
consecutive statements of one kind is one event; a raised exception
aborts the run, so the effects actually performed are a prefix of the
trace. -/
inductive Event where
  | mkdirBackups : Event
  | copyDbFile : Event
  | dbRead : Event
  | dbWrite : Event
deriving DecidableEq

/-- Effect order of `python_tools/update_standardizations.py`:
`os.makedirs(BACKUP_DIR, exist_ok=True)`; `shutil.copy2(DB_PATH,
backup_path)` with a timestamped filename under `archive/backups`; the
step-2 Rangoon fact-table UPDATEs; the Rangoon anchor and duplicate
SELECTs; the stations merge-loop UPDATEs/DELETEs; the `set_coords`
SELECTs; the `set_coords` UPDATEs/DELETEs (promotion, merges,
coordinates, fact tables); the step-4 coordinate UPDATEs; the summary
SELECTs. -/
def update_standardizations_trace : List Event :=
  [Event.mkdirBackups, Event.copyDbFile,
   Event.dbWrite, Event.dbRead, Event.dbWrite,
   Event.dbRead, Event.dbWrite, Event.dbWrite, Event.dbRead]

/-- Effect order of `archive/python_tools/standardize_data.py` `main()`:
`SELECT * FROM hospital_operations`; `PRAGMA table_info`; `DROP TABLE IF
EXISTS hospital_operations`; `CREATE TABLE hospital_operations`; the
re-insertion loop's INSERTs; the verification `SELECT DISTINCT`s.  The
script copies no file anywhere: its only "backup" is reading the rows
into memory. -/
def standardize_data_trace : List Event :=
  [Event.dbRead, Event.dbRead, Event.dbWrite, Event.dbWrite, Event.dbWrite,
   Event.dbRead]

/-- The `hospital_operations` column order created by `create_database.py`,
which is what `PRAGMA table_info(hospital_operations)` reports to
`standardize_data.py`'s `main()`. -/
def hospital_operations_columns : List PyStr :=
  [lit "hid", lit "doc_id", lit "source_name", lit "source_type", lit "year",
   lit "region", lit "station", lit "country", lit "act", lit "class",
   lit "staff_medical_officers", lit "staff_hospital_assistants",
   lit "staff_matron", lit "staff_coolies", lit "staff_peons",
   lit "staff_watermen", lit "ops_inspection_regularity",
   lit "ops_unlicensed_control_notes", lit "ops_committee_activity_notes"]

/-- Columns of the narrowed `hospital_operations` table recreated by
`standardize_data.py` `main()` (its `CREATE TABLE`). -/
def recreated_columns : List PyStr :=
  [lit "hid", lit "doc_id", lit "source_name", lit "source_type", lit "year",
   lit "region", lit "station", lit "country", lit "act", lit "class"]

/-- `keep_indices` of `standardize_data.py` `main()`: the position of each
kept column in the original table, looked up with `list.index`. -/
def keep_indices : List Nat :=
  [hospital_operations_columns.indexOf (lit "hid"),
   hospital_operations_columns.indexOf (lit "doc_id"),
   hospital_operations_columns.indexOf (lit "source_name"),
   hospital_operations_columns.indexOf (lit "source_type"),
   hospital_operations_columns.indexOf (lit "year"),
   hospital_operations_columns.indexOf (lit "region"),
   hospital_operations_columns.indexOf (lit "station"),
   hospital_operations_columns.indexOf (lit "country"),
   hospital_operations_columns.indexOf (lit "act"),
   hospital_operations_columns.indexOf (lit "class")]

/-- One row's trip through the re-insertion loop of `standardize_data.py`
`main()`: project the kept columns in `keep_indices` order, then
standardize act (position 8), class (9), country (7) and region (5) in
place, in that source order.  A cell is `Option PyStr` (`none` = SQL
NULL; the INTEGER `year` cell is opaque here since `main()` never
inspects it). -/
def transformRow (row : List (Option PyStr)) : List (Option PyStr) :=
  let new_row := keep_indices.map (fun i => row.getD i none)
  let new_row := new_row.set 8 (StandardizeData.standardize_act (new_row.getD 8 none))
  let new_row := new_row.set 9 (StandardizeData.standardize_class (new_row.getD 9 none))
  let new_row := new_row.set 7 (StandardizeData.standardize_country (new_row.getD 7 none))
  new_row.set 5 (StandardizeData.standardize_region (new_row.getD 5 none))

/-- A concrete 19-cell `hospital_operations` row. -/
def c9SampleRow : List (Option PyStr) :=
  [some (lit "h1"), some (lit "d1"), some (lit "Annual Report"),
   some (lit "report"), some (lit "1877"), some (lit "madras presidency"),
   some (lit "Bellary"), some (lit "british india"),
   some (lit "Act xiv of 1868"), some (lit "1st class"),
   none, none, none, none, none, none, none, none, none]

/-! ### Character-level lemmas -/

theorem isSpace_false_of_ge (c : Nat) (h : 33 ≤ c) : isSpace c = false := by
  simp only [isSpace, Bool.or_eq_false_iff, beq_eq_false_iff_ne, ne_eq]
  omega

theorem isUpper_iff (c : Nat) : isUpper c = true ↔ 65 ≤ c ∧ c ≤ 90 := by
  simp [isUpper]

theorem isLowerCh_iff (c : Nat) : isLowerCh c = true ↔ 97 ≤ c ∧ c ≤ 122 := by
  simp [isLowerCh]

theorem lowerChar_of_upper {c : Nat} (h : isUpper c = true) : lowerChar c = c + 32 := by
  simp [lowerChar, h]

theorem lowerChar_of_not_upper {c : Nat} (h : isUpper c = false) : lowerChar c = c := by
  simp [lowerChar, h]

theorem isSpace_lowerChar (c : Nat) : isSpace (lowerChar c) = isSpace c := by
  cases h : isUpper c with
  | false => rw [lowerChar_of_not_upper h]
  | true =>
    have hc := (isUpper_iff c).mp h
    rw [lowerChar_of_upper h, isSpace_false_of_ge _ (by omega), isSpace_false_of_ge _ (by omega)]

theorem lowerChar_lowerChar (c : Nat) : lowerChar (lowerChar c) = lowerChar c := by
  cases h : isUpper c with
  | false => rw [lowerChar_of_not_upper h, lowerChar_of_not_upper h]
  | true =>
    have hc := (isUpper_iff c).mp h
    have h2 : isUpper (c + 32) = false := by
      simp only [isUpper, Bool.and_eq_false_iff, decide_eq_false_iff_not]
      omega
    rw [lowerChar_of_upper h, lowerChar_of_not_upper h2]

theorem lowerChar_upperChar (c : Nat) : lowerChar (upperChar c) = lowerChar c := by
  cases h : isLowerCh c with
  | false => simp [upperChar, h]
  | true =>
    have hc := (isLowerCh_iff c).mp h
    have h1 : upperChar c = c - 32 := by simp [upperChar, h]
    have h2 : isUpper (c - 32) = true := by rw [isUpper_iff]; omega
    have h3 : isUpper c = false := by
      simp only [isUpper, Bool.and_eq_false_iff, decide_eq_false_iff_not]
      omega
    rw [h1, lowerChar_of_upper h2, lowerChar_of_not_upper h3]
    omega

/-! ### String-level lemmas: `lower`, `strip` and `title` interaction -/

theorem pyLower_idem (s : PyStr) : pyLower (pyLower s) = pyLower s := by
  simp only [pyLower, List.map_map]
  exact List.map_congr_left (fun c _ => lowerChar_lowerChar c)

theorem map_dropWhile_comm (f : Nat → Nat) (hf : ∀ c, isSpace (f c) = isSpace c)
    (l : PyStr) : (l.dropWhile isSpace).map f = (l.map f).dropWhile isSpace := by
  induction l with
  | nil => rfl
  | cons c cs ih =>
    rw [List.map_cons, List.dropWhile_cons, List.dropWhile_cons, hf c]
    cases h : isSpace c with
    | false => simp [h]
    | true => simp [h, ih]

theorem pyLower_pyStrip (s : PyStr) : pyLower (pyStrip s) = pyStrip (pyLower s) := by
  simp only [pyStrip, pyLower, List.map_reverse,
    map_dropWhile_comm lowerChar isSpace_lowerChar]

theorem pyStrip_eq_rdrop (s : PyStr) :
    pyStrip s = (s.dropWhile isSpace).rdropWhile isSpace := rfl

theorem dropWhile_head_false {p : Nat → Bool} :
    ∀ {l : PyStr} {b : Nat} {bs : PyStr}, l.dropWhile p = b :: bs → p b = false := by
  intro l
  induction l with
  | nil => intro b bs h; cases h
  | cons c cs ih =>
    intro b bs h
    rw [List.dropWhile_cons] at h
    by_cases hc : p c = true
    · rw [if_pos hc] at h
      exact ih h
    · rw [if_neg hc] at h
      cases h
      simpa using hc

theorem dropWhile_pyStrip (s : PyStr) :
    (pyStrip s).dropWhile isSpace = pyStrip s := by
  cases hB : pyStrip s with
  | nil => rfl
  | cons b bs =>
    have hpre : pyStrip s <+: s.dropWhile isSpace := by
      rw [pyStrip_eq_rdrop]
      exact List.rdropWhile_prefix _ _
    obtain ⟨t, ht⟩ := hpre
    rw [hB] at ht
    have hb : isSpace b = false := dropWhile_head_false (l := s) ht.symm
    rw [List.dropWhile_cons, hb]
    simp

theorem pyStrip_idem (s : PyStr) : pyStrip (pyStrip s) = pyStrip s := by
  rw [pyStrip_eq_rdrop (pyStrip s), dropWhile_pyStrip, pyStrip_eq_rdrop s,
    List.rdropWhile_idempotent]

theorem pyLower_pyTitleAux (s : PyStr) :
    ∀ b, pyLower (pyTitleAux b s) = pyLower s := by
  induction s with
  | nil => intro b; rfl
  | cons c cs ih =>
    intro b
    have h1 : lowerChar (titleChar b c) = lowerChar c := by
      cases ha : isAlpha c <;> cases b <;>
        simp [titleChar, ha, lowerChar_lowerChar, lowerChar_upperChar]
    simp only [pyTitleAux, pyLower, List.map_cons]
    rw [h1]
    have := ih (isAlpha c)
    simp only [pyLower] at this
    rw [this]

theorem pyTitle_nil_iff (s : PyStr) : pyTitle s = [] ↔ s = [] := by
  cases s <;> simp [pyTitle, pyTitleAux]

/-- The key of a renormalized title-case passthrough: lowering, stripping and
title-casing an already lowered-and-stripped value gives back that value's key. -/
theorem norm_key_pyTitle (v : PyStr) :
    pyStrip (pyLower (pyTitle (pyStrip (pyLower v)))) = pyStrip (pyLower v) := by
  rw [pyTitle, pyLower_pyTitleAux, pyLower_pyStrip, pyLower_idem, pyStrip_idem]

/-! ### Idempotence of the archive normalizers on inputs whose key is nonempty -/

theorem SD_class_idem (v : PyStr) (h : pyStrip (pyLower v) ≠ []) :
    StandardizeData.standardize_class (StandardizeData.standardize_class (some v)) =
      StandardizeData.standardize_class (some v) := by
  have hv : v.isEmpty = false := by
    cases v with
    | nil => exact absurd rfl h
    | cons c cs => rfl
  by_cases t1 : (pyIn (lit "first") (pyStrip (pyLower v)) || pyIn (lit "1st") (pyStrip (pyLower v))) = true
  · have hfv : StandardizeData.standardize_class (some v) = some (lit "First Class") := by
      simp [StandardizeData.standardize_class, hv, t1]
    rw [hfv]; decide
  by_cases t2 : (pyIn (lit "second") (pyStrip (pyLower v)) || pyIn (lit "2nd") (pyStrip (pyLower v))) = true
  · have hfv : StandardizeData.standardize_class (some v) = some (lit "Second Class") := by
      simp [StandardizeData.standardize_class, hv, t1, t2]
    rw [hfv]; decide
  by_cases t3 : (pyIn (lit "third") (pyStrip (pyLower v)) || pyIn (lit "3rd") (pyStrip (pyLower v))) = true
  · have hfv : StandardizeData.standardize_class (some v) = some (lit "Third Class") := by
      simp [StandardizeData.standardize_class, hv, t1, t2, t3]
    rw [hfv]; decide
  by_cases t4 : pyIn (lit "military") (pyStrip (pyLower v)) = true
  · have hfv : StandardizeData.standardize_class (some v) = some (lit "Military") := by
      simp [StandardizeData.standardize_class, hv, t1, t2, t3, t4]
    rw [hfv]; decide
  by_cases t5 : pyIn (lit "civil") (pyStrip (pyLower v)) = true
  · have hfv : StandardizeData.standardize_class (some v) = some (lit "Civil") := by
      simp [StandardizeData.standardize_class, hv, t1, t2, t3, t4, t5]
    rw [hfv]; decide
  · have hfv : StandardizeData.standardize_class (some v)
        = some (pyTitle (pyStrip (pyLower v))) := by
      simp [StandardizeData.standardize_class, hv, t1, t2, t3, t4, t5]
    rw [hfv]
    have hw : (pyTitle (pyStrip (pyLower v))).isEmpty = false := by
      cases hx : pyTitle (pyStrip (pyLower v)) with
      | nil => exact absurd ((pyTitle_nil_iff _).mp hx) h
      | cons a as => rfl
    simp only [StandardizeData.standardize_class, hw, Bool.false_eq_true, if_false,
      norm_key_pyTitle v]
    simp [t1, t2, t3, t4, t5]

theorem SD_act_idem (v : PyStr) (h : pyStrip (pyLower v) ≠ []) :
    StandardizeData.standardize_act (StandardizeData.standardize_act (some v)) =
      StandardizeData.standardize_act (some v) := by
  have hv : v.isEmpty = false := by
    cases v with
    | nil => exact absurd rfl h
    | cons c cs => rfl
  by_cases t1 : (pyIn (lit "xiv") (pyStrip (pyLower v)) && pyIn (lit "1868") (pyStrip (pyLower v))) = true
  · have hfv : StandardizeData.standardize_act (some v) = some (lit "Act XIV of 1868") := by
      simp [StandardizeData.standardize_act, hv, t1]
    rw [hfv]; decide
  by_cases t2 : (pyIn (lit "xxii") (pyStrip (pyLower v)) && pyIn (lit "1864") (pyStrip (pyLower v))) = true
  · have hfv : StandardizeData.standardize_act (some v) = some (lit "Act XXII of 1864") := by
      simp [StandardizeData.standardize_act, hv, t1, t2]
    rw [hfv]; decide
  by_cases t3 : (pyIn (lit "iii") (pyStrip (pyLower v)) && pyIn (lit "1880") (pyStrip (pyLower v))) = true
  · have hfv : StandardizeData.standardize_act (some v) = some (lit "Act III of 1880") := by
      simp [StandardizeData.standardize_act, hv, t1, t2, t3]
    rw [hfv]; decide
  by_cases t4 : (pyIn (lit "xii") (pyStrip (pyLower v)) && pyIn (lit "1864") (pyStrip (pyLower v))) = true
  · have hfv : StandardizeData.standardize_act (some v) = some (lit "Act XII of 1864") := by
      simp [StandardizeData.standardize_act, hv, t1, t2, t3, t4]
    rw [hfv]; decide
  by_cases t5 : pyIn (lit "voluntary") (pyStrip (pyLower v)) = true
  · have hfv : StandardizeData.standardize_act (some v) = some (lit "Voluntary System") := by
      simp [StandardizeData.standardize_act, hv, t1, t2, t3, t4, t5]
    rw [hfv]; decide
  · have hfv : StandardizeData.standardize_act (some v)
        = some (pyTitle (pyStrip (pyLower v))) := by
      simp [StandardizeData.standardize_act, hv, t1, t2, t3, t4, t5]
    rw [hfv]
    have hw : (pyTitle (pyStrip (pyLower v))).isEmpty = false := by
      cases hx : pyTitle (pyStrip (pyLower v)) with
      | nil => exact absurd ((pyTitle_nil_iff _).mp hx) h
      | cons a as => rfl
    simp only [StandardizeData.standardize_act, hw, Bool.false_eq_true, if_false,
      norm_key_pyTitle v]
    simp [t1, t2, t3, t4, t5]

theorem SD_country_idem (v : PyStr) (h : pyStrip (pyLower v) ≠ []) :
    StandardizeData.standardize_country (StandardizeData.standardize_country (some v)) =
      StandardizeData.standardize_country (some v) := by
  have hv : v.isEmpty = false := by
    cases v with
    | nil => exact absurd rfl h
    | cons c cs => rfl
  by_cases t1 : pyIn (lit "british india") (pyStrip (pyLower v)) = true
  · have hfv : StandardizeData.standardize_country (some v) = some (lit "British India") := by
      simp [StandardizeData.standardize_country, hv, t1]
    rw [hfv]; decide
  by_cases t2 : pyIn (lit "burma") (pyStrip (pyLower v)) = true
  · have hfv : StandardizeData.standardize_country (some v) = some (lit "British Burma") := by
      simp [StandardizeData.standardize_country, hv, t1, t2]
    rw [hfv]; decide
  · have hfv : StandardizeData.standardize_country (some v)
        = some (pyTitle (pyStrip (pyLower v))) := by
      simp [StandardizeData.standardize_country, hv, t1, t2]
    rw [hfv]
    have hw : (pyTitle (pyStrip (pyLower v))).isEmpty = false := by
      cases hx : pyTitle (pyStrip (pyLower v)) with
      | nil => exact absurd ((pyTitle_nil_iff _).mp hx) h
      | cons a as => rfl
    simp only [StandardizeData.standardize_country, hw, Bool.false_eq_true, if_false,
      norm_key_pyTitle v]
    simp [t1, t2]

theorem SD_region_idem (v : PyStr) (h : pyStrip (pyLower v) ≠ []) :
    StandardizeData.standardize_region (StandardizeData.standardize_region (some v)) =
      StandardizeData.standardize_region (some v) := by
  have hv : v.isEmpty = false := by
    cases v with
    | nil => exact absurd rfl h
    | cons c cs => rfl
  by_cases t1 : pyIn (lit "madras") (pyStrip (pyLower v)) = true
  · have hfv : StandardizeData.standardize_region (some v) = some (lit "Madras Presidency") := by
      simp [StandardizeData.standardize_region, hv, t1]
    rw [hfv]; decide
  by_cases t2 : pyIn (lit "burma") (pyStrip (pyLower v)) = true
  · have hfv : StandardizeData.standardize_region (some v) = some (lit "Burma") := by
      simp [StandardizeData.standardize_region, hv, t1, t2]
    rw [hfv]; decide
  by_cases t3 : pyIn (lit "punjab") (pyStrip (pyLower v)) = true
  · have hfv : StandardizeData.standardize_region (some v) = some (lit "Punjab") := by
      simp [StandardizeData.standardize_region, hv, t1, t2, t3]
    rw [hfv]; decide
  by_cases t4 : pyIn (lit "central provinces") (pyStrip (pyLower v)) = true
  · have hfv : StandardizeData.standardize_region (some v) = some (lit "Central Provinces") := by
      simp [StandardizeData.standardize_region, hv, t1, t2, t3, t4]
    rw [hfv]; decide
  by_cases t5 : (pyIn (lit "north-western provinces") (pyStrip (pyLower v)) || pyIn (lit "oudh") (pyStrip (pyLower v))) = true
  · have hfv : StandardizeData.standardize_region (some v)
        = some (lit "North-Western Provinces & Oudh") := by
      simp [StandardizeData.standardize_region, hv, t1, t2, t3, t4, t5]
    rw [hfv]; decide
  · have hfv : StandardizeData.standardize_region (some v)
        = some (pyTitle (pyStrip (pyLower v))) := by
      simp [StandardizeData.standardize_region, hv, t1, t2, t3, t4, t5]
    rw [hfv]
    have hw : (pyTitle (pyStrip (pyLower v))).isEmpty = false := by
      cases hx : pyTitle (pyStrip (pyLower v)) with
      | nil => exact absurd ((pyTitle_nil_iff _).mp hx) h
      | cons a as => rfl
    simp only [StandardizeData.standardize_region, hw, Bool.false_eq_true, if_false,
      norm_key_pyTitle v]
    simp [t1, t2, t3, t4, t5]

example : StandardizeData.standardize_class (some (lit "2ND CLASS")) = some (lit "Second Class") := by decide
example : StandardizeData.standardize_class (some (lit "1st military")) = some (lit "First Class") := by decide
example : StandardizeData.standardize_act (some (lit "xiv")) = some (lit "Xiv"):= by decide
example : StandardizeData.standardize_act (some (lit "Act No. XXII of 1864 (amended)")) = some (lit "Act XXII of 1864") := by decide
example : StandardizeData.standardize_region (some (lit "N.W. Provinces and Oudh")) = some (lit "North-Western Provinces & Oudh") := by decide
example : AnalyzeOps.clean_text (some (lit "  Madras   Presidency ")) = some (lit "Madras Presidency") := by decide
example : AnalyzeOps.standardize_class (some (lit "")) = some (lit "") := by decide

/-! ### Title-case outputs never contain two consecutive uppercase letters -/

theorem isUpper_lowerChar (c : Nat) : isUpper (lowerChar c) = false := by
  cases h : isUpper c with
  | false => rw [lowerChar_of_not_upper h]; exact h
  | true =>
    have hc := (isUpper_iff c).mp h
    rw [lowerChar_of_upper h]
    simp only [isUpper, Bool.and_eq_false_iff, decide_eq_false_iff_not]
    omega

theorem isUpper_of_not_alpha {c : Nat} (h : isAlpha c = false) : isUpper c = false := by
  simp only [isAlpha, Bool.or_eq_false_iff] at h
  exact h.1

theorem titleChar_true_not_upper (c : Nat) : isUpper (titleChar true c) = false := by
  cases h : isAlpha c with
  | false => simp [titleChar, h, isUpper_of_not_alpha h]
  | true => simp [titleChar, h, isUpper_lowerChar]

theorem noTwoUpper_pyTitleAux : ∀ (s : PyStr) (b : Bool), noTwoUpper (pyTitleAux b s) = true := by
  intro s
  induction s with
  | nil => intro b; rfl
  | cons c cs ih =>
    intro b
    cases cs with
    | nil => simp [pyTitleAux, noTwoUpper]
    | cons c2 rest =>
      have expand : noTwoUpper (pyTitleAux b (c :: c2 :: rest)) =
          (!(isUpper (titleChar b c) && isUpper (titleChar (isAlpha c) c2)) &&
            noTwoUpper (pyTitleAux (isAlpha c) (c2 :: rest))) := rfl
      have key : (!(isUpper (titleChar b c) && isUpper (titleChar (isAlpha c) c2))) = true := by
        cases ha : isAlpha c with
        | false =>
          have hx : isUpper (titleChar b c) = false := by
            simp [titleChar, ha, isUpper_of_not_alpha ha]
          simp [hx]
        | true =>
          have hx : isUpper (titleChar true c2) = false := titleChar_true_not_upper c2
          simp [hx]
      rw [expand, key, ih (isAlpha c)]
      rfl

theorem pyTitle_not_actxiv (s : PyStr) : pyTitle s ≠ lit "Act XIV of 1868" := by
  intro hcontra
  have h1 : noTwoUpper (pyTitle s) = true := noTwoUpper_pyTitleAux s false
  rw [hcontra] at h1
  exact absurd h1 (by decide)

/-! ## Claim theorems: the text normalizers -/

/-- C4 (amended): idempotence of the four archive categorical normalizers,
`normalize (normalize x) = normalize x`, holds for the null input, for the
empty string, and for every string whose lowered-and-stripped form is
nonempty — but not for nonempty whitespace-only strings (see the
counterexample: those normalize to the empty string, which the falsy guard
then sends to null). -/
theorem c4_normalizer_idempotent_amended :
    (∀ v : PyStr, pyStrip (pyLower v) ≠ [] →
      StandardizeData.standardize_class (StandardizeData.standardize_class (some v)) =
        StandardizeData.standardize_class (some v) ∧
      StandardizeData.standardize_act (StandardizeData.standardize_act (some v)) =
        StandardizeData.standardize_act (some v) ∧
      StandardizeData.standardize_country (StandardizeData.standardize_country (some v)) =
        StandardizeData.standardize_country (some v) ∧
      StandardizeData.standardize_region (StandardizeData.standardize_region (some v)) =
        StandardizeData.standardize_region (some v)) ∧
    (StandardizeData.standardize_class (StandardizeData.standardize_class none) =
        StandardizeData.standardize_class none ∧
      StandardizeData.standardize_act (StandardizeData.standardize_act none) =
        StandardizeData.standardize_act none ∧
      StandardizeData.standardize_country (StandardizeData.standardize_country none) =
        StandardizeData.standardize_country none ∧
      StandardizeData.standardize_region (StandardizeData.standardize_region none) =
        StandardizeData.standardize_region none) ∧
    (StandardizeData.standardize_class (StandardizeData.standardize_class (some [])) =
        StandardizeData.standardize_class (some []) ∧
      StandardizeData.standardize_act (StandardizeData.standardize_act (some [])) =
        StandardizeData.standardize_act (some []) ∧
      StandardizeData.standardize_country (StandardizeData.standardize_country (some [])) =
        StandardizeData.standardize_country (some []) ∧
      StandardizeData.standardize_region (StandardizeData.standardize_region (some [])) =
        StandardizeData.standardize_region (some [])) :=
  ⟨fun v h => ⟨SD_class_idem v h, SD_act_idem v h, SD_country_idem v h, SD_region_idem v h⟩,
   ⟨rfl, rfl, rfl, rfl⟩, by decide⟩

/-- C4 witness: the amended idempotence theorem applied at the concrete
input `"x"`. -/
theorem c4_witness :
    pyStrip (pyLower (lit "x")) ≠ [] ∧
    StandardizeData.standardize_class (StandardizeData.standardize_class (some (lit "x"))) =
      StandardizeData.standardize_class (some (lit "x")) :=
  ⟨by decide, (c4_normalizer_idempotent_amended.1 (lit "x") (by decide)).1⟩

/-- C4 counterexample: at the whitespace-only input `" "` all four archive
normalizers return the empty string, but applied a second time they return
null (the `if not value` guard), so `normalize (normalize x) ≠ normalize x`. -/
theorem c4_counterexample :
    StandardizeData.standardize_class (StandardizeData.standardize_class (some (lit " "))) ≠
      StandardizeData.standardize_class (some (lit " ")) ∧
    StandardizeData.standardize_act (StandardizeData.standardize_act (some (lit " "))) ≠
      StandardizeData.standardize_act (some (lit " ")) ∧
    StandardizeData.standardize_country (StandardizeData.standardize_country (some (lit " "))) ≠
      StandardizeData.standardize_country (some (lit " ")) ∧
    StandardizeData.standardize_region (StandardizeData.standardize_region (some (lit " "))) ≠
      StandardizeData.standardize_region (some (lit " ")) := by
  refine ⟨?_, ?_, ?_, ?_⟩ <;> decide

/-- C5: the four archive categorical normalizers, the two copies in the
analysis script, and the whitespace cleaner all map the null (absent)
input to null.  Totality on all remaining inputs (never raising) is
witnessed by the fact that each is a total Lean function on `Option PyStr`. -/
theorem c5_absence_preservation :
    StandardizeData.standardize_class none = none ∧
    StandardizeData.standardize_act none = none ∧
    StandardizeData.standardize_country none = none ∧
    StandardizeData.standardize_region none = none ∧
    AnalyzeOps.standardize_class none = none ∧
    AnalyzeOps.standardize_act none = none ∧
    AnalyzeOps.clean_text none = none :=
  ⟨rfl, rfl, rfl, rfl, rfl, rfl, rfl⟩

/-- C6: rule-order determinism of the class normalizer (both copies): if
rule `i` of the ordered rule list matches the lowered-and-stripped input
and no earlier rule matches, the output is rule `i`'s output; in
particular `"1st military"`, which matches both the first-class rule and
the military rule, yields `"First Class"`. -/
theorem c6_class_rule_order (v : PyStr) (i : Nat) (hi : i < 5)
    (hhit : (classRuleTest v).getD i false = true)
    (hfirst : ∀ k, k < i → (classRuleTest v).getD k false = false) :
    StandardizeData.standardize_class (some v) = some (classRuleOut.getD i []) ∧
    AnalyzeOps.standardize_class (some v) = some (classRuleOut.getD i []) ∧
    StandardizeData.standardize_class (some (lit "1st military")) = some (lit "First Class") ∧
    AnalyzeOps.standardize_class (some (lit "1st military")) = some (lit "First Class") := by
  have hv : v.isEmpty = false := by
    cases v with
    | nil => exact absurd hhit (by interval_cases i <;> decide)
    | cons c cs => rfl
  refine ⟨?_, ?_, by decide, by decide⟩ <;>
  · interval_cases i
    · simp only [classRuleTest, List.getD_cons_zero] at hhit
      simp [StandardizeData.standardize_class, AnalyzeOps.standardize_class, classRuleOut,
        hv, hhit]
    · have h0 := hfirst 0 (by omega)
      simp only [classRuleTest, List.getD_cons_zero, List.getD_cons_succ] at hhit h0
      simp [StandardizeData.standardize_class, AnalyzeOps.standardize_class, classRuleOut,
        hv, hhit, h0]
    · have h0 := hfirst 0 (by omega)
      have h1 := hfirst 1 (by omega)
      simp only [classRuleTest, List.getD_cons_zero, List.getD_cons_succ] at hhit h0 h1
      simp [StandardizeData.standardize_class, AnalyzeOps.standardize_class, classRuleOut,
        hv, hhit, h0, h1]
    · have h0 := hfirst 0 (by omega)
      have h1 := hfirst 1 (by omega)
      have h2 := hfirst 2 (by omega)
      simp only [classRuleTest, List.getD_cons_zero, List.getD_cons_succ] at hhit h0 h1 h2
      simp [StandardizeData.standardize_class, AnalyzeOps.standardize_class, classRuleOut,
        hv, hhit, h0, h1, h2]
    · have h0 := hfirst 0 (by omega)
      have h1 := hfirst 1 (by omega)
      have h2 := hfirst 2 (by omega)
      have h3 := hfirst 3 (by omega)
      simp only [classRuleTest, List.getD_cons_zero, List.getD_cons_succ] at hhit h0 h1 h2 h3
      simp [StandardizeData.standardize_class, AnalyzeOps.standardize_class, classRuleOut,
        hv, hhit, h0, h1, h2, h3]

/-- C6 witness: the rule-order theorem applied at `"1st military"` with
`i = 0`. -/
theorem c6_witness :
    (classRuleTest (lit "1st military")).getD 0 false = true ∧
    StandardizeData.standardize_class (some (lit "1st military")) =
      some (classRuleOut.getD 0 []) :=
  ⟨by decide,
   (c6_class_rule_order (lit "1st military") 0 (by omega) (by decide)
      (fun k hk => absurd hk (by omega))).1⟩

/-- C7: an act value containing `"xiv"` but not `"1868"` that matches no
other act rule falls through to the title-case passthrough in both act
normalizers, and the result is never `"Act XIV of 1868"`; in particular
`"xiv"` yields `"Xiv"`. -/
theorem c7_act_requires_both_tokens (v : PyStr)
    (hxiv : pyIn (lit "xiv") (pyStrip (pyLower v)) = true)
    (h1868 : pyIn (lit "1868") (pyStrip (pyLower v)) = false)
    (hr2 : (pyIn (lit "xxii") (pyStrip (pyLower v)) && pyIn (lit "1864") (pyStrip (pyLower v))) = false)
    (hr3 : (pyIn (lit "iii") (pyStrip (pyLower v)) && pyIn (lit "1880") (pyStrip (pyLower v))) = false)
    (hr4 : (pyIn (lit "xii") (pyStrip (pyLower v)) && pyIn (lit "1864") (pyStrip (pyLower v))) = false)
    (hr5 : pyIn (lit "voluntary") (pyStrip (pyLower v)) = false) :
    StandardizeData.standardize_act (some v) = some (pyTitle (pyStrip (pyLower v))) ∧
    StandardizeData.standardize_act (some v) ≠ some (lit "Act XIV of 1868") ∧
    AnalyzeOps.standardize_act (some v) = some (pyTitle (pyStrip (pyLower v))) ∧
    AnalyzeOps.standardize_act (some v) ≠ some (lit "Act XIV of 1868") ∧
    StandardizeData.standardize_act (some (lit "xiv")) = some (lit "Xiv") ∧
    AnalyzeOps.standardize_act (some (lit "xiv")) = some (lit "Xiv") := by
  have hv : v.isEmpty = false := by
    cases v with
    | nil => exact absurd hxiv (by decide)
    | cons c cs => rfl
  have t1 : (pyIn (lit "xiv") (pyStrip (pyLower v)) && pyIn (lit "1868") (pyStrip (pyLower v))) = false := by
    rw [hxiv, h1868]
    rfl
  have hsd : StandardizeData.standardize_act (some v) = some (pyTitle (pyStrip (pyLower v))) := by
    simp [StandardizeData.standardize_act, hv, t1, hr2, hr3, hr4, hr5]
  have hao : AnalyzeOps.standardize_act (some v) = some (pyTitle (pyStrip (pyLower v))) := by
    simp [AnalyzeOps.standardize_act, t1, hr2, hr3]
  refine ⟨hsd, ?_, hao, ?_, by decide, by decide⟩
  · intro hc
    rw [hsd] at hc
    exact pyTitle_not_actxiv _ (Option.some.inj hc)
  · intro hc
    rw [hao] at hc
    exact pyTitle_not_actxiv _ (Option.some.inj hc)

/-- C7 witness: the theorem applied at the concrete input `"xiv"`. -/
theorem c7_witness :
    pyIn (lit "xiv") (pyStrip (pyLower (lit "xiv"))) = true ∧
    StandardizeData.standardize_act (some (lit "xiv")) =
      some (pyTitle (pyStrip (pyLower (lit "xiv")))) :=
  ⟨by decide,
   (c7_act_requires_both_tokens (lit "xiv") (by decide) (by decide) (by decide) (by decide)
      (by decide) (by decide)).1⟩

/-- C10: the two copies of the class normalizer agree on the null input and
on every nonempty string input; on the empty string they differ: the
archive copy returns null (falsy guard) while the analysis copy returns
the empty string. -/
theorem c10_class_copies_refinement :
    StandardizeData.standardize_class none = AnalyzeOps.standardize_class none ∧
    (∀ v : PyStr, v ≠ [] →
      StandardizeData.standardize_class (some v) = AnalyzeOps.standardize_class (some v)) ∧
    StandardizeData.standardize_class (some []) = none ∧
    AnalyzeOps.standardize_class (some []) = some [] := by
  refine ⟨rfl, ?_, by decide, by decide⟩
  intro v hv
  have hv2 : v.isEmpty = false := by
    cases v with
    | nil => exact absurd rfl hv
    | cons c cs => rfl
  simp [StandardizeData.standardize_class, AnalyzeOps.standardize_class, hv2]

/-- C10 witness: the agreement part applied at the concrete nonempty
input `"x"`. -/
theorem c10_witness :
    lit "x" ≠ [] ∧
    StandardizeData.standardize_class (some (lit "x")) =
      AnalyzeOps.standardize_class (some (lit "x")) :=
  ⟨by decide, c10_class_copies_refinement.2.1 (lit "x") (by decide)⟩

/-! ### Generic lemmas for the update model -/

theorem map_id_of {α : Type} (f : α → α) (l : List α) (h : ∀ x ∈ l, f x = x) :
    l.map f = l := by
  induction l with
  | nil => rfl
  | cons c cs ih =>
    rw [List.map_cons, h c (List.mem_cons_self c cs),
      ih (fun x hx => h x (List.mem_cons_of_mem c hx))]

theorem updateCount_no_match {α : Type} {p : α → Bool} {f : α → α} {l : List α}
    (h : ∀ x ∈ l, p x = false) : updateCount p f l = (l, 0) := by
  have h1 : l.map (fun x => if p x then f x else x) = l :=
    map_id_of _ _ (fun x hx => by simp [h x hx])
  have h2 : l.filter p = [] := List.filter_eq_nil_iff.mpr (fun a ha => by simp [h a ha])
  unfold updateCount
  rw [h1, h2]
  rfl

theorem ids_map_station_id (g : Station → Station) (hg : ∀ s, (g s).station_id = s.station_id)
    (l : List Station) : (l.map g).map Station.station_id = l.map Station.station_id := by
  rw [List.map_map]
  exact List.map_congr_left (fun s _ => hg s)

theorem notref_stations_of_ids_eq {b : Nat} {l l' : List Station}
    (hids : l'.map Station.station_id = l.map Station.station_id)
    (h : ∀ s ∈ l, s.station_id ≠ b) : ∀ s ∈ l', s.station_id ≠ b := by
  intro s hs
  have hmm : s.station_id ∈ l'.map Station.station_id := List.mem_map_of_mem _ hs
  rw [hids] at hmm
  obtain ⟨t, ht, hts⟩ := List.mem_map.mp hmm
  rw [← hts]
  exact h t ht

theorem retarget_step {S : List Nat} {p oldId : Nat} (hpo : p ≠ oldId) (r : Report) :
    (fun x => if x.station_id = oldId then { x with station_id := p } else x) (retarget S p r)
      = retarget (S ++ [oldId]) p r := by
  by_cases h1 : r.station_id ∈ S
  · have e1 : retarget S p r = { r with station_id := p } := by simp [retarget, h1]
    have e2 : retarget (S ++ [oldId]) p r = { r with station_id := p } := by
      simp [retarget, List.mem_append, h1]
    rw [e1, e2]
    simp [hpo]
  · have e1 : retarget S p r = r := by simp [retarget, h1]
    rw [e1]
    by_cases h2 : r.station_id = oldId
    · have e2 : retarget (S ++ [oldId]) p r = { r with station_id := p } := by
        simp [retarget, List.mem_append, h2]
      rw [e2]
      simp [h2]
    · have e2 : retarget (S ++ [oldId]) p r = r := by
        simp [retarget, List.mem_append, h1, h2]
      rw [e2]
      simp [h2]

/-! ### The `set_coords` merge-loop invariant -/

theorem coordsMergeStep_inv {newName : PyStr} {M0 : List Nat} {rp0 : List Report}
    {c0 : Option Nat} {cs : CoordsState} {oldId : Nat}
    (hI : CInv newName M0 rp0 c0 cs)
    (hne : ∀ cid, cs.canonicalId = some cid → oldId ≠ cid)
    (hmem : cs.canonicalId = none → oldId ∈ cs.stations.map Station.station_id) :
    CInv newName M0 rp0 c0 (coordsMergeStep newName cs oldId) := by
  obtain ⟨h1, h2, h3, h4, h5, h6⟩ := hI
  cases hc : cs.canonicalId with
  | none =>
    obtain ⟨hm, hrp, hpr⟩ := h5 hc
    have hstep : coordsMergeStep newName cs oldId =
        { cs with
          stations := cs.stations.map
            (fun s => if s.station_id = oldId then { s with name := newName } else s)
          canonicalId := some oldId
          promoted := cs.promoted ++ [oldId] } := by
      unfold coordsMergeStep
      rw [hc]
    have hids : ((cs.stations.map
        (fun s => if s.station_id = oldId then { s with name := newName } else s)).map
          Station.station_id) = cs.stations.map Station.station_id :=
      ids_map_station_id _ (fun s => by by_cases h : s.station_id = oldId <;> simp [h]) _
    rw [hstep]
    refine ⟨?_, ?_, ?_, ?_, ?_, ?_⟩
    · simpa [hids] using h1
    · intro b hb
      exact ⟨notref_stations_of_ids_eq hids (h2 b hb).1, (h2 b hb).2⟩
    · intro cid hcid
      simp only [Option.some.injEq] at hcid
      subst hcid
      obtain ⟨t, ht, hts⟩ := List.mem_map.mp (hmem hc)
      refine ⟨{ t with name := newName }, ?_, by simpa using hts, rfl⟩
      have : (fun s => if s.station_id = oldId then { s with name := newName } else s) t
          = { t with name := newName } := by simp [hts]
      rw [← this]
      exact List.mem_map_of_mem _ ht
    · intro cid _
      rw [hm, hrp]
      symm
      exact map_id_of _ _ (fun r _ => by simp [retarget])
    · intro hcontra
      cases hcontra
    · cases hc0 : c0 with
      | some c0v =>
        rw [hc0] at h6
        rw [h6.1] at hc
        cases hc
      | none =>
        exact Or.inr ⟨oldId, rfl, by rw [hpr]; rfl⟩
  | some cid =>
    have hocid : oldId ≠ cid := hne cid hc
    obtain ⟨s, hsmem, hsid, hsname⟩ := h3 cid hc
    have hrp4 := h4 cid hc
    have hstep : coordsMergeStep newName cs oldId =
        { cs with
          stations := cs.stations.filter (fun s => s.station_id != oldId)
          station_reports := cs.station_reports.map
            (fun r => if r.station_id = oldId then { r with station_id := cid } else r)
          merged := cs.merged ++ [oldId] } := by
      unfold coordsMergeStep
      rw [hc]
    have hsub : List.Sublist
        ((cs.stations.filter (fun s => s.station_id != oldId)).map Station.station_id)
        (cs.stations.map Station.station_id) :=
      List.Sublist.map _ (List.filter_sublist _)
    have hcid_in : cid ∈ cs.stations.map Station.station_id := by
      rw [← hsid]; exact List.mem_map_of_mem _ hsmem
    rw [hstep]
    refine ⟨?_, ?_, ?_, ?_, ?_, ?_⟩
    · exact List.Nodup.sublist hsub h1
    · intro b hb
      have hb2 : b ∈ M0 ++ cs.merged ∨ b = oldId := by
        rcases List.mem_append.mp hb with h | h
        · exact Or.inl (List.mem_append.mpr (Or.inl h))
        · rcases List.mem_append.mp h with h | h
          · exact Or.inl (List.mem_append.mpr (Or.inr h))
          · exact Or.inr (List.mem_singleton.mp h)
      rcases hb2 with hb2 | hb2
      · have hold := h2 b hb2
        constructor
        · intro t ht
          exact hold.1 t (List.mem_of_mem_filter ht)
        · intro r hr
          obtain ⟨r0, hr0, hr0e⟩ := List.mem_map.mp hr
          have hcidb : cid ≠ b := by
            intro hcb
            obtain ⟨t, ht, hts⟩ := List.mem_map.mp hcid_in
            exact hold.1 t ht (by rw [hts, hcb])
          rw [← hr0e]
          by_cases hcase : r0.station_id = oldId
          · rw [if_pos hcase]
            exact hcidb
          · rw [if_neg hcase]
            exact hold.2 r0 hr0
      · constructor
        · intro t ht
          rw [hb2]
          exact bne_iff_ne.mp (List.mem_filter.mp ht).2
        · intro r hr
          obtain ⟨r0, hr0, hr0e⟩ := List.mem_map.mp hr
          rw [← hr0e, hb2]
          by_cases hcase : r0.station_id = oldId
          · rw [if_pos hcase]
            exact hocid.symm
          · rw [if_neg hcase]
            exact hcase
    · intro cid2 hcid2
      rw [hc] at hcid2
      injection hcid2 with hcc
      subst hcc
      refine ⟨s, ?_, hsid, hsname⟩
      rw [List.mem_filter]
      refine ⟨hsmem, ?_⟩
      rw [bne_iff_ne, hsid]
      exact Ne.symm hocid
    · intro cid2 hcid2
      rw [hc] at hcid2
      injection hcid2 with hcc
      subst hcc
      rw [hrp4, List.map_map]
      exact List.map_congr_left (fun r _ => retarget_step (Ne.symm hocid) r)
    · intro hcontra
      rw [hc] at hcontra
      cases hcontra
    · cases hc0 : c0 with
      | some c0v =>
        rw [hc0] at h6
        exact ⟨h6.1, h6.2⟩
      | none =>
        rw [hc0] at h6
        rcases h6 with h6 | ⟨p, hp, hppr⟩
        · rw [h6] at hc; cases hc
        · exact Or.inr ⟨p, hp, hppr⟩

theorem coordsFold_inv {newName : PyStr} {M0 : List Nat} {rp0 : List Report} {c0 : Option Nat} :
    ∀ (l : List Nat) (cs : CoordsState),
    CInv newName M0 rp0 c0 cs →
    l.Nodup →
    (∀ o ∈ l, ∀ cid, cs.canonicalId = some cid → o ≠ cid) →
    (∀ o ∈ l, cs.canonicalId = none → o ∈ cs.stations.map Station.station_id) →
    CInv newName M0 rp0 c0 (l.foldl (coordsMergeStep newName) cs) := by
  intro l
  induction l with
  | nil => intro cs hI _ _ _; exact hI
  | cons o rest ih =>
    intro cs hI hnd hne hmem
    rw [List.foldl_cons]
    have hI2 := coordsMergeStep_inv hI (hne o (List.mem_cons_self o rest))
      (hmem o (List.mem_cons_self o rest))
    have hcan : ∃ q, (coordsMergeStep newName cs o).canonicalId = some q ∧
        (∀ o2 ∈ rest, o2 ≠ q) := by
      cases hc : cs.canonicalId with
      | none =>
        refine ⟨o, by simp [coordsMergeStep, hc], ?_⟩
        intro o2 ho2 hcontra
        rw [hcontra] at ho2
        exact (List.nodup_cons.mp hnd).1 ho2
      | some c =>
        refine ⟨c, by simp [coordsMergeStep, hc], ?_⟩
        intro o2 ho2
        exact hne o2 (List.mem_cons_of_mem o ho2) c hc
    obtain ⟨q, hq, hqne⟩ := hcan
    apply ih
    · exact hI2
    · exact (List.nodup_cons.mp hnd).2
    · intro o2 ho2 cid hcid
      rw [hq] at hcid
      injection hcid with hqq
      rw [← hqq]
      exact hqne o2 ho2
    · intro o2 ho2 hnone
      rw [hq] at hnone
      cases hnone

theorem coordsCond_inv {newName : PyStr} {M0 : List Nat} {rp0 : List Report} {c0 : Option Nat}
    (cond : PyStr → Bool) {cs : CoordsState}
    (hI : CInv newName M0 rp0 c0 cs) :
    CInv newName M0 rp0 c0 (coordsCond newName cond cs) := by
  unfold coordsCond
  apply coordsFold_inv _ _ hI
  · have hsub : List.Sublist
        ((cs.stations.filter (fun s => cond s.name && s.name != newName)).map Station.station_id)
        (cs.stations.map Station.station_id) :=
      List.Sublist.map _ (List.filter_sublist _)
    exact List.Nodup.sublist hsub hI.1
  · intro o ho cid hcid
    obtain ⟨t, ht, hto⟩ := List.mem_map.mp ho
    obtain ⟨s, hsmem, hsid, hsname⟩ := hI.2.2.1 cid hcid
    intro hoc
    have htmem := (List.mem_filter.mp ht).1
    have htcond := (List.mem_filter.mp ht).2
    rw [Bool.and_eq_true] at htcond
    have hname_ne : t.name ≠ newName := bne_iff_ne.mp htcond.2
    have hts : t = s :=
      List.inj_on_of_nodup_map hI.1 htmem hsmem (by rw [hto, hoc, hsid])
    exact hname_ne (by rw [hts, hsname])
  · intro o ho _
    obtain ⟨t, ht, hto⟩ := List.mem_map.mp ho
    rw [← hto]
    exact List.mem_map_of_mem _ (List.mem_of_mem_filter ht)

theorem coordsCondsFold_inv {newName : PyStr} {M0 : List Nat} {rp0 : List Report}
    {c0 : Option Nat} (conds : List (PyStr → Bool)) {cs : CoordsState}
    (hI : CInv newName M0 rp0 c0 cs) :
    CInv newName M0 rp0 c0 (conds.foldl (fun cs cond => coordsCond newName cond cs) cs) := by
  induction conds generalizing cs with
  | nil => exact hI
  | cons c rest ih =>
    rw [List.foldl_cons]
    exact ih (coordsCond_inv c hI)

theorem set_coords_CInv (conds : List (PyStr → Bool)) (newName : PyStr) (db : DB)
    (M0 : List Nat)
    (hnd : (db.stations.map Station.station_id).Nodup)
    (hM0 : ∀ b ∈ M0, NotRef b db.stations db.station_reports) :
    CInv newName M0 db.station_reports
      ((db.stations.find? (fun s => s.name == newName)).map Station.station_id)
      (scLoopState conds newName db) := by
  apply coordsCondsFold_inv
  cases hf : db.stations.find? (fun s => s.name == newName) with
  | none =>
    refine ⟨hnd, ?_, ?_, ?_, ?_, Or.inl rfl⟩
    · intro b hb
      rw [List.append_nil] at hb
      exact hM0 b hb
    · intro cid hcid
      cases hcid
    · intro cid hcid
      cases hcid
    · intro _
      exact ⟨rfl, rfl, rfl⟩
  | some s =>
    refine ⟨hnd, ?_, ?_, ?_, ?_, ⟨rfl, rfl⟩⟩
    · intro b hb
      rw [List.append_nil] at hb
      exact hM0 b hb
    · intro cid hcid
      injection hcid with hcc
      refine ⟨s, List.mem_of_find?_eq_some hf, hcc, ?_⟩
      have hbeq := @List.find?_some Station (fun t : Station => t.name == newName) s db.stations hf
      exact eq_of_beq hbeq
    · intro cid _
      symm
      exact map_id_of _ _ (fun r _ => by simp [retarget])
    · intro hcontra
      cases hcontra

/-! ### The Rangoon merge loop -/

theorem rangoonFoldNone :
    ∀ (l : List Nat) (st : MergeState),
    (l.foldl (rangoonMergeStep none) st).station_reports = st.station_reports ∧
    (l.foldl (rangoonMergeStep none) st).merged = st.merged ∧
    ((l.foldl (rangoonMergeStep none) st).stations.map Station.station_id)
      = st.stations.map Station.station_id := by
  intro l
  induction l with
  | nil => intro st; exact ⟨rfl, rfl, rfl⟩
  | cons o rest ih =>
    intro st
    rw [List.foldl_cons]
    have hstep_ids : ((rangoonMergeStep none st o).stations.map Station.station_id)
        = st.stations.map Station.station_id :=
      ids_map_station_id _ (fun s => by by_cases h : s.station_id = o <;> simp [h]) _
    obtain ⟨a, b, c⟩ := ih (rangoonMergeStep none st o)
    exact ⟨by rw [a]; rfl, by rw [b]; rfl, by rw [c, hstep_ids]⟩

theorem rangoonFoldSome (rid : Nat) :
    ∀ (l : List Nat) (st : MergeState),
    (st.stations.map Station.station_id).Nodup →
    (∀ b ∈ st.merged, NotRef b st.stations st.station_reports) →
    rid ∈ st.stations.map Station.station_id →
    (∀ o ∈ l, o ≠ rid) →
    (((l.foldl (rangoonMergeStep (some rid)) st).stations.map Station.station_id).Nodup ∧
     (∀ b ∈ (l.foldl (rangoonMergeStep (some rid)) st).merged,
        NotRef b (l.foldl (rangoonMergeStep (some rid)) st).stations
          (l.foldl (rangoonMergeStep (some rid)) st).station_reports) ∧
     rid ∈ (l.foldl (rangoonMergeStep (some rid)) st).stations.map Station.station_id) := by
  intro l
  induction l with
  | nil => intro st h1 h2 h3 _; exact ⟨h1, h2, h3⟩
  | cons o rest ih =>
    intro st h1 h2 h3 h4
    rw [List.foldl_cons]
    have hstep : rangoonMergeStep (some rid) st o =
        { stations := st.stations.filter (fun s => s.station_id != o),
          station_reports := st.station_reports.map
            (fun r => if r.station_id = o then { r with station_id := rid } else r),
          merged := st.merged ++ [o],
          renamed := st.renamed } := rfl
    have hor : o ≠ rid := h4 o (List.mem_cons_self o rest)
    apply ih
    · rw [hstep]
      exact List.Nodup.sublist (List.Sublist.map _ (List.filter_sublist _)) h1
    · rw [hstep]
      intro b hb
      have hb2 : b ∈ st.merged ∨ b = o := by
        rcases List.mem_append.mp hb with h | h
        · exact Or.inl h
        · exact Or.inr (List.mem_singleton.mp h)
      rcases hb2 with hb2 | hb2
      · have hold := h2 b hb2
        have hridb : rid ≠ b := by
          intro hrb
          obtain ⟨t, ht, hts⟩ := List.mem_map.mp h3
          exact hold.1 t ht (by rw [hts, hrb])
        constructor
        · intro t ht
          exact hold.1 t (List.mem_of_mem_filter ht)
        · intro r hr
          obtain ⟨r0, hr0, hr0e⟩ := List.mem_map.mp hr
          rw [← hr0e]
          by_cases hcase : r0.station_id = o
          · rw [if_pos hcase]
            exact hridb
          · rw [if_neg hcase]
            exact hold.2 r0 hr0
      · constructor
        · intro t ht
          rw [hb2]
          exact bne_iff_ne.mp (List.mem_filter.mp ht).2
        · intro r hr
          obtain ⟨r0, hr0, hr0e⟩ := List.mem_map.mp hr
          rw [← hr0e, hb2]
          by_cases hcase : r0.station_id = o
          · rw [if_pos hcase]
            exact Ne.symm hor
          · rw [if_neg hcase]
            exact hcase
    · rw [hstep]
      obtain ⟨t, ht, hts⟩ := List.mem_map.mp h3
      rw [← hts]
      apply List.mem_map_of_mem
      rw [List.mem_filter]
      refine ⟨ht, ?_⟩
      rw [bne_iff_ne, hts]
      exact Ne.symm hor
    · intro o2 ho2
      exact h4 o2 (List.mem_cons_of_mem o ho2)

theorem rangoonMergeStations_main (stations : List Station) (reports : List Report)
    (hnd : (stations.map Station.station_id).Nodup) :
    ((rangoonMergeStations stations reports).stations.map Station.station_id).Nodup ∧
    (∀ b ∈ (rangoonMergeStations stations reports).merged,
      NotRef b (rangoonMergeStations stations reports).stations
        (rangoonMergeStations stations reports).station_reports) := by
  unfold rangoonMergeStations
  cases hf : stations.find? (fun s => s.name == lit "Rangoon") with
  | none =>
    simp only [Option.map_none']
    obtain ⟨ha, hb, hc⟩ := rangoonFoldNone
      ((stations.filter
        (fun s => startsWith (pyLower s.name) (lit "india (british burma)"))).map
          Station.station_id)
      ⟨stations, reports, [], []⟩
    constructor
    · rw [hc]
      exact hnd
    · rw [hb]
      intro bb hbb
      cases hbb
  | some s =>
    simp only [Option.map_some']
    have hsname : s.name = lit "Rangoon" := by
      have hbeq := @List.find?_some Station (fun t : Station => t.name == lit "Rangoon") s
        stations hf
      exact eq_of_beq hbeq
    have hsmem : s ∈ stations := List.mem_of_find?_eq_some hf
    have h4 : ∀ o ∈ (stations.filter
        (fun s => startsWith (pyLower s.name) (lit "india (british burma)"))).map
          Station.station_id, o ≠ s.station_id := by
      intro o ho hoc
      obtain ⟨t, ht, hto⟩ := List.mem_map.mp ho
      have htmem := (List.mem_filter.mp ht).1
      have htcond := (List.mem_filter.mp ht).2
      have hts : t = s :=
        List.inj_on_of_nodup_map hnd htmem hsmem (by rw [hto, hoc])
      rw [hts, hsname] at htcond
      exact absurd htcond (by decide)
    have hres := rangoonFoldSome s.station_id
      ((stations.filter
        (fun s => startsWith (pyLower s.name) (lit "india (british burma)"))).map
          Station.station_id)
      ⟨stations, reports, [], []⟩ hnd (fun b hb => absurd hb (List.not_mem_nil b))
      (List.mem_map_of_mem Station.station_id hsmem) h4
    exact ⟨hres.1, hres.2.1⟩

/-! ### Shapes of the `set_coords` and `runPass` results -/

theorem set_coords_db_stations (conds : List (PyStr → Bool)) (newName : PyStr)
    (lat lon : Rat) (db : DB) :
    (set_coords conds newName lat lon db).db.stations
      = (scLoopState conds newName db).stations.map
          (fun s => if s.name == newName then
            { s with latitude := some lat, longitude := some lon } else s) := rfl

theorem set_coords_db_reports (conds : List (PyStr → Bool)) (newName : PyStr)
    (lat lon : Rat) (db : DB) :
    (set_coords conds newName lat lon db).db.station_reports
      = (scLoopState conds newName db).station_reports := rfl

theorem set_coords_merged_eq (conds : List (PyStr → Bool)) (newName : PyStr)
    (lat lon : Rat) (db : DB) :
    (set_coords conds newName lat lon db).merged = (scLoopState conds newName db).merged := rfl

theorem set_coords_promoted_eq (conds : List (PyStr → Bool)) (newName : PyStr)
    (lat lon : Rat) (db : DB) :
    (set_coords conds newName lat lon db).promoted
      = (scLoopState conds newName db).promoted := rfl

theorem runPass_db (db : DB) :
    (runPass db).db =
      { (set_coords sitabaldiConds sitabaldiName 21.1430 79.0871 (rangoonPhase db)).db with
        stations := (coordFixesRun
          (set_coords sitabaldiConds sitabaldiName 21.1430 79.0871
            (rangoonPhase db)).db.stations).1 } := rfl

theorem runPass_rangoonMerged (db : DB) :
    (runPass db).rangoonMerged
      = (rangoonMergeStations db.stations db.station_reports).merged := rfl

theorem runPass_scMerged (db : DB) :
    (runPass db).scMerged
      = (set_coords sitabaldiConds sitabaldiName 21.1430 79.0871 (rangoonPhase db)).merged := rfl

theorem coordFixesFold_ids :
    ∀ (fixes : List ((PyStr → Bool) × Rat × Rat)) (acc : List Station × List Nat),
    ((fixes.foldl (fun (acc : List Station × List Nat) fix =>
      let u := updateCount (fun s => fix.1 s.name)
        (fun s => { s with latitude := some fix.2.1, longitude := some fix.2.2 }) acc.1
      (u.1, acc.2 ++ [u.2])) acc).1).map Station.station_id = acc.1.map Station.station_id := by
  intro fixes
  induction fixes with
  | nil => intro acc; rfl
  | cons f rest ih =>
    intro acc
    rw [List.foldl_cons, ih]
    exact ids_map_station_id _ (fun s => by by_cases h : (f.1 s.name) = true <;> simp [h]) _

theorem coordFixesRun_ids (l : List Station) :
    ((coordFixesRun l).1).map Station.station_id = l.map Station.station_id :=
  coordFixesFold_ids coordFixes (l, [])

/-! ## Claim theorems: the station merge pass -/

set_option maxHeartbeats 1600000 in
/-- C1: referential integrity of the station merges.  For every station id
`b` merged (repointed-and-deleted) by the Rangoon merge loop or the
`set_coords` merge loop of the update pass, the final database holds no
station row with id `b` and no station_reports row pointing at `b`.
Requires only the schema invariant that station ids are unique
(`station_id` is the primary key). -/
theorem c1_station_merge_referential_integrity (db : DB)
    (hnd : (db.stations.map Station.station_id).Nodup) :
    ∀ b ∈ (runPass db).rangoonMerged ++ (runPass db).scMerged,
      NotRef b (runPass db).db.stations (runPass db).db.station_reports := by
  intro b hb
  obtain ⟨hnd1, hR⟩ := rangoonMergeStations_main db.stations db.station_reports hnd
  have hCInv := set_coords_CInv sitabaldiConds sitabaldiName (rangoonPhase db)
    (rangoonMergeStations db.stations db.station_reports).merged hnd1 hR
  obtain ⟨hndL, h2L, _, _, _, _⟩ := hCInv
  rw [runPass_rangoonMerged, runPass_scMerged, set_coords_merged_eq] at hb
  have hbL := h2L b hb
  rw [runPass_db]
  have e1 : ((coordFixesRun
      (set_coords sitabaldiConds sitabaldiName 21.1430 79.0871
        (rangoonPhase db)).db.stations).1).map Station.station_id
      = (scLoopState sitabaldiConds sitabaldiName (rangoonPhase db)).stations.map
          Station.station_id := by
    rw [coordFixesRun_ids, set_coords_db_stations]
    exact ids_map_station_id _
      (fun s => by by_cases h : (s.name == sitabaldiName) = true <;> simp [h]) _
  refine ⟨?_, ?_⟩
  · exact notref_stations_of_ids_eq e1 hbL.1
  · show ∀ r ∈ (set_coords sitabaldiConds sitabaldiName 21.1430 79.0871
      (rangoonPhase db)).db.station_reports, r.station_id ≠ b
    rw [set_coords_db_reports]
    exact hbL.2

/-- C1 witness: the referential-integrity theorem applied to the concrete
sample database (the pass merges variant 2 into Rangoon and variant 3 into
the promoted Sitabaldi canonical). -/
theorem c1_witness :
    ((c1SampleDB.stations.map Station.station_id).Nodup) ∧
    (∀ b ∈ (runPass c1SampleDB).rangoonMerged ++ (runPass c1SampleDB).scMerged,
      NotRef b (runPass c1SampleDB).db.stations (runPass c1SampleDB).db.station_reports) :=
  ⟨by decide, c1_station_merge_referential_integrity c1SampleDB (by decide)⟩

/-- `List.foldlM` over `Except` on the empty list returns the seed. -/
theorem exceptFoldlM_nil {σ α : Type} (f : σ → α → Except SqlError σ) (s : σ) :
    List.foldlM f s [] = Except.ok s := rfl

/-- `List.foldlM` over `Except` on a cons: run the head step, then bind. -/
theorem exceptFoldlM_cons {σ α : Type} (f : σ → α → Except SqlError σ) (s : σ)
    (a : α) (l : List α) :
    List.foldlM f s (a :: l) = Except.bind (f s a) (fun s2 => List.foldlM f s2 l) := rfl

theorem except_bind_ok {σ τ : Type} (x : σ) (g : σ → Except SqlError τ) :
    Except.bind (Except.ok x) g = g x := rfl

theorem except_bind_error {σ τ : Type} (e : SqlError) (g : σ → Except SqlError τ) :
    Except.bind (Except.error e : Except SqlError σ) g
      = (Except.error e : Except SqlError τ) := rfl

/-- A checked rename succeeds when no station bears the new name. -/
theorem renameChecked_ok (newName : PyStr) (x : Nat) (stations : List Station)
    (h : ∀ s ∈ stations, s.name ≠ newName) :
    renameChecked newName x stations = Except.ok (stations.map
      (fun s => if s.station_id = x then { s with name := newName } else s)) := by
  have hany : stations.any (fun s => s.station_id != x && s.name == newName) = false := by
    rw [List.any_eq_false]
    intro s hs hP
    rw [Bool.and_eq_true] at hP
    exact h s hs (eq_of_beq hP.2)
  unfold renameChecked
  rw [hany]
  rfl

/-- The constraint-checked Rangoon merge with no pre-existing anchor:
with at most one matching variant the run completes, renaming it and
merging nothing; with two or more, the second rename violates the
`stations.name` UNIQUE constraint and the run dies with
`sqlite3.IntegrityError`. -/
theorem rangoonMergeStationsE_char (stations : List Station) (reports : List Report)
    (hnd : (stations.map Station.station_id).Nodup)
    (hnor : ∀ s ∈ stations, s.name ≠ lit "Rangoon") :
    ((rangoonDupsOf stations).length ≤ 1 →
      ∃ st2, rangoonMergeStationsE stations reports
        = Except.ok ⟨st2, reports, [], rangoonDupsOf stations⟩) ∧
    (2 ≤ (rangoonDupsOf stations).length →
      rangoonMergeStationsE stations reports = Except.error SqlError.integrityError) := by
  have hfind : stations.find? (fun s => s.name == lit "Rangoon") = none :=
    List.find?_eq_none.mpr (fun x hx hb => hnor x hx (eq_of_beq hb))
  have hE : rangoonMergeStationsE stations reports
      = (rangoonDupsOf stations).foldlM (rangoonMergeStepE none)
          ⟨stations, reports, [], []⟩ := by
    unfold rangoonMergeStationsE
    rw [hfind, Option.map_none']
  have hdnd : (rangoonDupsOf stations).Nodup :=
    List.Nodup.sublist (List.Sublist.map Station.station_id (List.filter_sublist stations)) hnd
  rcases hds : rangoonDupsOf stations with _ | ⟨a, tl⟩
  · refine ⟨fun _ => ⟨stations, ?_⟩, fun h2 => ?_⟩
    · rw [hE, hds, exceptFoldlM_nil]
    · simp at h2
  · have hstep1 : rangoonMergeStepE none ⟨stations, reports, [], []⟩ a
        = Except.ok ⟨stations.map
            (fun s => if s.station_id = a then { s with name := lit "Rangoon" } else s),
          reports, [], [a]⟩ := by
      show (match renameChecked (lit "Rangoon") a stations with
        | Except.error e => Except.error e
        | Except.ok st2 => Except.ok (⟨st2, reports, [], [] ++ [a]⟩ : MergeState))
        = Except.ok (⟨stations.map
            (fun s => if s.station_id = a then { s with name := lit "Rangoon" } else s),
          reports, [], [a]⟩ : MergeState)
      rw [renameChecked_ok (lit "Rangoon") a stations hnor]
      rfl
    rcases tl with _ | ⟨b, rest⟩
    · refine ⟨fun _ => ⟨stations.map
          (fun s => if s.station_id = a then { s with name := lit "Rangoon" } else s), ?_⟩,
        fun h2 => ?_⟩
      · rw [hE, hds, exceptFoldlM_cons, hstep1, except_bind_ok, exceptFoldlM_nil]
      · simp at h2
    · have hmem : a ∈ rangoonDupsOf stations := by
        rw [hds]
        exact List.mem_cons_self a (b :: rest)
      obtain ⟨sa, hsa_mem_filter, hsa_id⟩ := List.mem_map.mp hmem
      have hsa_mem : sa ∈ stations := List.mem_of_mem_filter hsa_mem_filter
      have hab : a ≠ b := by
        rw [hds] at hdnd
        have hnotmem := (List.nodup_cons.mp hdnd).1
        intro he
        exact hnotmem (he ▸ List.mem_cons_self b rest)
      have hmem2 : ({ sa with name := lit "Rangoon" } : Station) ∈ stations.map
          (fun s => if s.station_id = a then { s with name := lit "Rangoon" } else s) := by
        have himg : (fun s => if s.station_id = a then { s with name := lit "Rangoon" } else s) sa
            = { sa with name := lit "Rangoon" } := by
          show (if sa.station_id = a then { sa with name := lit "Rangoon" } else sa)
            = { sa with name := lit "Rangoon" }
          rw [if_pos hsa_id]
        rw [← himg]
        exact List.mem_map_of_mem _ hsa_mem
      have hany2 : (stations.map
          (fun s => if s.station_id = a then { s with name := lit "Rangoon" } else s)).any
            (fun s => s.station_id != b && s.name == lit "Rangoon") = true := by
        rw [List.any_eq_true]
        refine ⟨{ sa with name := lit "Rangoon" }, hmem2, ?_⟩
        show (sa.station_id != b && (lit "Rangoon" == lit "Rangoon")) = true
        rw [Bool.and_eq_true]
        constructor
        · rw [bne_iff_ne, hsa_id]
          exact hab
        · exact beq_iff_eq.mpr rfl
      have hren2 : renameChecked (lit "Rangoon") b (stations.map
          (fun s => if s.station_id = a then { s with name := lit "Rangoon" } else s))
          = Except.error SqlError.integrityError := by
        unfold renameChecked
        rw [hany2]
        rfl
      have hstep2 : rangoonMergeStepE none ⟨stations.map
            (fun s => if s.station_id = a then { s with name := lit "Rangoon" } else s),
          reports, [], [a]⟩ b = Except.error SqlError.integrityError := by
        show (match renameChecked (lit "Rangoon") b (stations.map
            (fun s => if s.station_id = a then { s with name := lit "Rangoon" } else s)) with
          | Except.error e => Except.error e
          | Except.ok st2 => Except.ok (⟨st2, reports, [], [a] ++ [b]⟩ : MergeState))
          = Except.error SqlError.integrityError
        rw [hren2]
      refine ⟨fun h1 => ?_, fun _ => ?_⟩
      · simp at h1
      · rw [hE, hds, exceptFoldlM_cons, hstep1, except_bind_ok, exceptFoldlM_cons, hstep2,
          except_bind_error]

/-- C2 counterexample: with the `stations.name` UNIQUE NOT NULL constraint
of `create_database.py` enforced, the Rangoon merge over two Burma
variants with no pre-existing 'Rangoon' anchor does not promote-and-merge:
the anchor is computed once before the loop, so the loop renames; the
first rename succeeds, and the second rename then violates the UNIQUE
constraint, so the run dies with `sqlite3.IntegrityError` and the
transaction is never committed — no variant is ever merged into a
promoted anchor, and the claimed promoted-and-merged final state is never
reached. -/
theorem c2_counterexample :
    (c2SampleStations.find? (fun s => s.name == lit "Rangoon") = none) ∧
    rangoonDupsOf c2SampleStations = [1, 2] ∧
    rangoonMergeStepE none ⟨c2SampleStations, c2SampleReports, [], []⟩ 1
      = Except.ok ⟨[⟨1, lit "Rangoon", none, none⟩,
          ⟨2, lit "India (British Burma)+G143", none, none⟩], c2SampleReports, [], [1]⟩ ∧
    rangoonMergeStationsE c2SampleStations c2SampleReports
      = Except.error SqlError.integrityError := by
  decide

set_option maxHeartbeats 1600000 in
/-- Promotion discipline of the `set_coords` merge loop: starting with no
station bearing the canonical name, at most one variant is ever promoted
(renamed to the canonical name); if one is, its id `p` denotes a station
bearing the canonical name in the final state, every other processed
variant is merged — its id is referenced by no station and no report,
and the final reports are exactly the initial reports with every merged
id repointed to `p`. -/
theorem set_coords_promotion_char (conds : List (PyStr → Bool)) (newName : PyStr)
    (lat lon : Rat) (db : DB)
    (hnd : (db.stations.map Station.station_id).Nodup)
    (hnoanchor : ∀ s ∈ db.stations, s.name ≠ newName) :
    ((set_coords conds newName lat lon db).promoted = [] →
      (set_coords conds newName lat lon db).merged = [] ∧
      (set_coords conds newName lat lon db).db.station_reports = db.station_reports) ∧
    (∀ p, (set_coords conds newName lat lon db).promoted = [p] →
      (∃ s ∈ (set_coords conds newName lat lon db).db.stations,
        s.station_id = p ∧ s.name = newName) ∧
      (∀ b ∈ (set_coords conds newName lat lon db).merged,
        NotRef b (set_coords conds newName lat lon db).db.stations
          (set_coords conds newName lat lon db).db.station_reports) ∧
      (set_coords conds newName lat lon db).db.station_reports
        = db.station_reports.map
            (retarget (set_coords conds newName lat lon db).merged p)) ∧
    ((set_coords conds newName lat lon db).promoted = [] ∨
      ∃ p, (set_coords conds newName lat lon db).promoted = [p]) := by
  have hc0 : db.stations.find? (fun s => s.name == newName) = none :=
    List.find?_eq_none.mpr (fun x hx hb => hnoanchor x hx (eq_of_beq hb))
  have hCInv := set_coords_CInv conds newName db [] hnd (fun b hb => absurd hb (List.not_mem_nil b))
  obtain ⟨hndL, h2L, h3L, h4L, h5L, h6L⟩ := hCInv
  rw [hc0] at h6L
  simp only [Option.map_none'] at h6L
  have hids : ((set_coords conds newName lat lon db).db.stations.map Station.station_id)
      = (scLoopState conds newName db).stations.map Station.station_id := by
    rw [set_coords_db_stations]
    exact ids_map_station_id _
      (fun s => by by_cases h : (s.name == newName) = true <;> simp [h]) _
  rcases h6L with hcanonone | ⟨p0, hcanon, hprom⟩
  · obtain ⟨hm, hrp, hpr⟩ := h5L hcanonone
    refine ⟨?_, ?_, Or.inl ?_⟩
    · intro _
      refine ⟨?_, ?_⟩
      · rw [set_coords_merged_eq, hm]
      · rw [set_coords_db_reports, hrp]
    · intro p hp
      rw [set_coords_promoted_eq, hpr] at hp
      cases hp
    · rw [set_coords_promoted_eq, hpr]
  · refine ⟨?_, ?_, Or.inr ⟨p0, ?_⟩⟩
    · intro h
      rw [set_coords_promoted_eq, hprom] at h
      cases h
    · intro p hp
      rw [set_coords_promoted_eq, hprom] at hp
      injection hp with hpe _
      rw [← hpe]
      obtain ⟨s, hsmem, hsid, hsname⟩ := h3L p0 hcanon
      refine ⟨?_, ?_, ?_⟩
      · refine ⟨{ s with latitude := some lat, longitude := some lon }, ?_, hsid, hsname⟩
        rw [set_coords_db_stations]
        have hval : (fun s => if s.name == newName then
            { s with latitude := some lat, longitude := some lon } else s) s
            = { s with latitude := some lat, longitude := some lon } := by
          have : (s.name == newName) = true := beq_iff_eq.mpr hsname
          simp [this]
        rw [← hval]
        exact List.mem_map_of_mem _ hsmem
      · intro b hb
        rw [set_coords_merged_eq] at hb
        have hbL := h2L b (by rw [List.nil_append]; exact hb)
        refine ⟨notref_stations_of_ids_eq hids hbL.1, ?_⟩
        show ∀ r ∈ (set_coords conds newName lat lon db).db.station_reports, r.station_id ≠ b
        rw [set_coords_db_reports]
        exact hbL.2
      · rw [set_coords_db_reports, set_coords_merged_eq]
        exact h4L p0 hcanon
    · exact hprom

set_option maxHeartbeats 1600000 in
/-- C2 (amended): anchor promotion holds for the `set_coords` resolver
passes — starting with no station bearing the canonical name, at most one
variant is ever promoted (renamed to the canonical name); if one is, its
id `p` denotes a station bearing the canonical name in the final state,
every other processed variant is merged (its id referenced by no station
and no report), and the final reports are the initial reports with every
merged id repointed to `p`.  The Rangoon merge pass does NOT promote:
its anchor is computed once before the loop, so with no pre-existing
'Rangoon' row it renames instead of merging — with at most one matching
variant the run completes with that variant renamed and nothing merged,
and with two or more the second rename violates the `stations.name`
UNIQUE constraint, so the run dies with `sqlite3.IntegrityError` (see the
counterexample). -/
theorem c2_anchor_promotion_amended :
    (∀ (conds : List (PyStr → Bool)) (newName : PyStr) (lat lon : Rat) (db : DB),
      (db.stations.map Station.station_id).Nodup →
      (∀ s ∈ db.stations, s.name ≠ newName) →
      ((set_coords conds newName lat lon db).promoted = [] →
        (set_coords conds newName lat lon db).merged = [] ∧
        (set_coords conds newName lat lon db).db.station_reports = db.station_reports) ∧
      (∀ p, (set_coords conds newName lat lon db).promoted = [p] →
        (∃ s ∈ (set_coords conds newName lat lon db).db.stations,
          s.station_id = p ∧ s.name = newName) ∧
        (∀ b ∈ (set_coords conds newName lat lon db).merged,
          NotRef b (set_coords conds newName lat lon db).db.stations
            (set_coords conds newName lat lon db).db.station_reports) ∧
        (set_coords conds newName lat lon db).db.station_reports
          = db.station_reports.map
              (retarget (set_coords conds newName lat lon db).merged p)) ∧
      ((set_coords conds newName lat lon db).promoted = [] ∨
        ∃ p, (set_coords conds newName lat lon db).promoted = [p])) ∧
    (∀ (stations : List Station) (reports : List Report),
      (stations.map Station.station_id).Nodup →
      (∀ s ∈ stations, s.name ≠ lit "Rangoon") →
      ((rangoonDupsOf stations).length ≤ 1 →
        ∃ st2, rangoonMergeStationsE stations reports
          = Except.ok ⟨st2, reports, [], rangoonDupsOf stations⟩) ∧
      (2 ≤ (rangoonDupsOf stations).length →
        rangoonMergeStationsE stations reports = Except.error SqlError.integrityError)) :=
  ⟨fun conds newName lat lon db hnd hnoanchor =>
    set_coords_promotion_char conds newName lat lon db hnd hnoanchor,
   fun stations reports hnd hnor =>
    rangoonMergeStationsE_char stations reports hnd hnor⟩

set_option maxHeartbeats 800000 in
/-- C2 witness: the amended theorem applied to a concrete database with
two Sitabaldi variants and no canonical row (promotion side), and to a
concrete one-variant stations table with no 'Rangoon' row (Rangoon
side). -/
theorem c2_witness :
    ((∀ s ∈ c2WitnessDB.stations, s.name ≠ sitabaldiName) ∧
      ((set_coords sitabaldiConds sitabaldiName 21.1430 79.0871 c2WitnessDB).promoted = [] ∨
        ∃ p, (set_coords sitabaldiConds sitabaldiName 21.1430 79.0871 c2WitnessDB).promoted
          = [p])) ∧
    ((∀ s ∈ c2SingleStations, s.name ≠ lit "Rangoon") ∧
      ∃ st2, rangoonMergeStationsE c2SingleStations c2SingleReports
        = Except.ok ⟨st2, c2SingleReports, [], rangoonDupsOf c2SingleStations⟩) :=
  ⟨⟨by decide,
    (c2_anchor_promotion_amended.1 sitabaldiConds sitabaldiName 21.1430 79.0871 c2WitnessDB
      (by decide) (by decide)).2.2⟩,
   ⟨by decide,
    (c2_anchor_promotion_amended.2 c2SingleStations c2SingleReports
      (by decide) (by decide)).1 (by decide)⟩⟩

/-! ### C8: the database state is a fixed point of the update pass -/

theorem startsWith_refl : ∀ l : PyStr, startsWith l l = true := by
  intro l
  induction l with
  | nil => rfl
  | cons c cs ih => simp [startsWith, ih]

/-- Generic preservation of a row property by a constant-value update
whose new value satisfies the property. -/
theorem updateConst_pres {P : PyStr → Prop} {nv : PyStr} (hP : P nv)
    (c : PyStr → Bool) {rows : List PyStr} (h : ∀ row ∈ rows, P row) :
    ∀ row ∈ (updateCount c (fun _ => nv) rows).1, P row := by
  intro row hrow
  obtain ⟨r0, hr0, hr0e⟩ := List.mem_map.mp hrow
  by_cases hc : c r0 = true
  · rw [← hr0e, if_pos hc]
    exact hP
  · rw [← hr0e, if_neg hc]
    exact h r0 hr0

theorem rangoonFixTable_no_india (rows : List PyStr) :
    ∀ row ∈ (rangoonFixTable rows).1,
      startsWith (pyLower row) (lit "india (british burma)") = false := by
  intro row hrow
  have hshape : (rangoonFixTable rows).1 =
      (updateCount (fun s => startsWith (pyLower s) (lit "india (british burma)"))
        (fun _ => lit "Rangoon")
        (updateCount (fun s => s == lit "India (British Burma)+G143") (fun _ => lit "Rangoon")
          (updateCount (fun s => pyLower s == lit "india (british burma)")
            (fun _ => lit "Rangoon") rows).1).1).1 := rfl
  rw [hshape] at hrow
  obtain ⟨r0, hr0, hr0e⟩ := List.mem_map.mp hrow
  by_cases hc : startsWith (pyLower r0) (lit "india (british burma)") = true
  · rw [← hr0e, if_pos hc]
    show startsWith (pyLower (lit "Rangoon")) (lit "india (british burma)") = false
    decide
  · rw [← hr0e, if_neg hc]
    simpa using hc

theorem rangoonFixTable_id (rows : List PyStr)
    (h : ∀ row ∈ rows, startsWith (pyLower row) (lit "india (british burma)") = false) :
    rangoonFixTable rows = (rows, 0) := by
  have e1 : updateCount (fun s => pyLower s == lit "india (british burma)")
      (fun _ => lit "Rangoon") rows = (rows, 0) :=
    updateCount_no_match (fun row hrow => by
      by_cases hb : (pyLower row == lit "india (british burma)") = true
      · exfalso
        have heq := eq_of_beq hb
        have h2 := h row hrow
        rw [heq, startsWith_refl] at h2
        cases h2
      · simpa using hb)
  have e2 : updateCount (fun s => s == lit "India (British Burma)+G143")
      (fun _ => lit "Rangoon") rows = (rows, 0) :=
    updateCount_no_match (fun row hrow => by
      by_cases hb : (row == lit "India (British Burma)+G143") = true
      · exfalso
        have heq := eq_of_beq hb
        have h2 := h row hrow
        rw [heq] at h2
        exact absurd h2 (by decide)
      · simpa using hb)
  have e3 : updateCount (fun s => startsWith (pyLower s) (lit "india (british burma)"))
      (fun _ => lit "Rangoon") rows = (rows, 0) :=
    updateCount_no_match h
  unfold rangoonFixTable
  dsimp only
  rw [e1]
  dsimp only
  rw [e2]
  dsimp only
  rw [e3]
  rfl

theorem coordsFactFix_pres {P : PyStr → Prop} {newName : PyStr} (hP : P newName) :
    ∀ (conds : List (PyStr → Bool)) (acc : List PyStr × List Nat),
    (∀ row ∈ acc.1, P row) →
    ∀ row ∈ (conds.foldl (fun (acc : List PyStr × List Nat) cond =>
      let u := updateCount cond (fun _ => newName) acc.1
      (u.1, acc.2 ++ [u.2])) acc).1, P row := by
  intro conds
  induction conds with
  | nil => intro acc h; exact h
  | cons c rest ih =>
    intro acc h
    rw [List.foldl_cons]
    exact ih _ (updateConst_pres hP c h)

theorem coordsFactFix_canon {newName : PyStr} :
    ∀ (conds : List (PyStr → Bool)) (acc : List PyStr × List Nat),
    ∀ c ∈ conds, ∀ row ∈ (conds.foldl (fun (acc : List PyStr × List Nat) cond =>
      let u := updateCount cond (fun _ => newName) acc.1
      (u.1, acc.2 ++ [u.2])) acc).1, c row = true → row = newName := by
  intro conds
  induction conds with
  | nil => intro acc c hc; cases hc
  | cons c0 rest ih =>
    intro acc c hc
    rw [List.foldl_cons]
    rcases List.mem_cons.mp hc with hceq | hcm
    · rw [hceq]
      refine @coordsFactFix_pres (fun row => c0 row = true → row = newName) newName
        (fun _ => rfl) rest _ ?_
      intro row hrow
      obtain ⟨r0, hr0, hr0e⟩ := List.mem_map.mp hrow
      by_cases hcr : c0 r0 = true
      · rw [← hr0e, if_pos hcr]
        intro _
        rfl
      · rw [← hr0e, if_neg hcr]
        intro hcontra
        exact absurd hcontra hcr
    · exact ih _ c hcm

theorem coordsFactFix_id {newName : PyStr} :
    ∀ (conds : List (PyStr → Bool)) (acc : List PyStr × List Nat),
    (∀ row ∈ acc.1, ∀ c ∈ conds, c row = true → row = newName) →
    (conds.foldl (fun (acc : List PyStr × List Nat) cond =>
      let u := updateCount cond (fun _ => newName) acc.1
      (u.1, acc.2 ++ [u.2])) acc).1 = acc.1 := by
  intro conds
  induction conds with
  | nil => intro acc _; rfl
  | cons c0 rest ih =>
    intro acc h
    rw [List.foldl_cons]
    have hstep1 : (updateCount c0 (fun _ => newName) acc.1).1 = acc.1 :=
      map_id_of _ _ (fun row hrow => by
        by_cases hc : c0 row = true
        · rw [if_pos hc]
          exact (h row hrow c0 (List.mem_cons_self c0 rest) hc).symm
        · rw [if_neg hc])
    have hrest := ih (((updateCount c0 (fun _ => newName) acc.1).1,
        acc.2 ++ [(updateCount c0 (fun _ => newName) acc.1).2])) (by
      intro row hrow c hcm
      rw [hstep1] at hrow
      exact h row hrow c (List.mem_cons_of_mem c0 hcm))
    rw [hrest]
    exact hstep1

theorem coordsStep_name_pres {newName : PyStr} {Q : PyStr → Prop} (hQ : Q newName)
    {cs : CoordsState} (h : ∀ s ∈ cs.stations, Q s.name) (o : Nat) :
    ∀ s ∈ (coordsMergeStep newName cs o).stations, Q s.name := by
  intro s hs
  cases hc : cs.canonicalId with
  | none =>
    have he : (coordsMergeStep newName cs o).stations = cs.stations.map
        (fun s => if s.station_id = o then { s with name := newName } else s) := by
      unfold coordsMergeStep
      rw [hc]
    rw [he] at hs
    obtain ⟨t, ht, hte⟩ := List.mem_map.mp hs
    by_cases hcase : t.station_id = o
    · rw [← hte, if_pos hcase]
      exact hQ
    · rw [← hte, if_neg hcase]
      exact h t ht
  | some cid =>
    have he : (coordsMergeStep newName cs o).stations
        = cs.stations.filter (fun s => s.station_id != o) := by
      unfold coordsMergeStep
      rw [hc]
    rw [he] at hs
    exact h s (List.mem_of_mem_filter hs)

theorem coordsFold_name_pres {newName : PyStr} {Q : PyStr → Prop} (hQ : Q newName) :
    ∀ (l : List Nat) (cs : CoordsState), (∀ s ∈ cs.stations, Q s.name) →
    ∀ s ∈ (l.foldl (coordsMergeStep newName) cs).stations, Q s.name := by
  intro l
  induction l with
  | nil => intro cs h; exact h
  | cons o rest ih =>
    intro cs h
    rw [List.foldl_cons]
    exact ih _ (coordsStep_name_pres hQ h o)

theorem coordsCond_name_pres {newName : PyStr} {Q : PyStr → Prop} (hQ : Q newName)
    (c : PyStr → Bool) {cs : CoordsState} (h : ∀ s ∈ cs.stations, Q s.name) :
    ∀ s ∈ (coordsCond newName c cs).stations, Q s.name :=
  coordsFold_name_pres hQ _ cs h

theorem scCondsFold_name_pres {newName : PyStr} {Q : PyStr → Prop} (hQ : Q newName) :
    ∀ (conds : List (PyStr → Bool)) (cs : CoordsState), (∀ s ∈ cs.stations, Q s.name) →
    ∀ s ∈ (conds.foldl (fun cs cond => coordsCond newName cond cs) cs).stations, Q s.name := by
  intro conds
  induction conds with
  | nil => intro cs h; exact h
  | cons c rest ih =>
    intro cs h
    rw [List.foldl_cons]
    exact ih _ (coordsCond_name_pres hQ c h)

theorem coordsCondFold_establishes {newName : PyStr} (c : PyStr → Bool) :
    ∀ (l : List Nat) (cs : CoordsState),
    (∀ s ∈ cs.stations, c s.name = true → (s.name = newName ∨ s.station_id ∈ l)) →
    ∀ s ∈ (l.foldl (coordsMergeStep newName) cs).stations, c s.name = true → s.name = newName := by
  intro l
  induction l with
  | nil =>
    intro cs h s hs hc
    rcases h s hs hc with h1 | h1
    · exact h1
    · cases h1
  | cons o rest ih =>
    intro cs h
    rw [List.foldl_cons]
    apply ih
    intro s hs hc
    cases hcan : cs.canonicalId with
    | none =>
      have he : (coordsMergeStep newName cs o).stations = cs.stations.map
          (fun s => if s.station_id = o then { s with name := newName } else s) := by
        unfold coordsMergeStep
        rw [hcan]
      rw [he] at hs
      obtain ⟨t, ht, hte⟩ := List.mem_map.mp hs
      by_cases hcase : t.station_id = o
      · rw [← hte, if_pos hcase]
        exact Or.inl rfl
      · rw [← hte, if_neg hcase] at hc ⊢
        rcases h t ht hc with h1 | h1
        · exact Or.inl h1
        · rcases List.mem_cons.mp h1 with h1 | h1
          · exact absurd h1 hcase
          · exact Or.inr h1
    | some cid =>
      have he : (coordsMergeStep newName cs o).stations
          = cs.stations.filter (fun s => s.station_id != o) := by
        unfold coordsMergeStep
        rw [hcan]
      rw [he] at hs
      have hsm := (List.mem_filter.mp hs).1
      have hso : s.station_id ≠ o := bne_iff_ne.mp (List.mem_filter.mp hs).2
      rcases h s hsm hc with h1 | h1
      · exact Or.inl h1
      · rcases List.mem_cons.mp h1 with h1 | h1
        · exact absurd h1 hso
        · exact Or.inr h1

theorem coordsCond_establishes {newName : PyStr} (c : PyStr → Bool) (cs : CoordsState) :
    ∀ s ∈ (coordsCond newName c cs).stations, c s.name = true → s.name = newName := by
  unfold coordsCond
  apply coordsCondFold_establishes
  intro s hs hc
  by_cases hn : s.name = newName
  · exact Or.inl hn
  · refine Or.inr (List.mem_map_of_mem _ ?_)
    rw [List.mem_filter]
    refine ⟨hs, ?_⟩
    rw [Bool.and_eq_true]
    exact ⟨hc, bne_iff_ne.mpr hn⟩

theorem scLoop_canonical_names {newName : PyStr} :
    ∀ (conds : List (PyStr → Bool)) (cs : CoordsState),
    ∀ c ∈ conds,
    ∀ s ∈ (conds.foldl (fun cs cond => coordsCond newName cond cs) cs).stations,
      c s.name = true → s.name = newName := by
  intro conds
  induction conds with
  | nil => intro cs c hc; cases hc
  | cons c0 rest ih =>
    intro cs c hc
    rw [List.foldl_cons]
    rcases List.mem_cons.mp hc with hceq | hcm
    · rw [hceq]
      exact @scCondsFold_name_pres newName (fun nm => c0 nm = true → nm = newName)
        (fun _ => rfl) rest _ (coordsCond_establishes c0 cs)
    · exact ih _ c hcm

theorem applyFixes_name : ∀ (fixes : List ((PyStr → Bool) × Rat × Rat)) (s : Station),
    (applyFixes fixes s).name = s.name := by
  intro fixes
  induction fixes with
  | nil => intro s; rfl
  | cons f rest ih =>
    intro s
    have hstep : applyFixes (f :: rest) s = applyFixes rest
        (if f.1 s.name then
          { s with latitude := some f.2.1, longitude := some f.2.2 } else s) := rfl
    rw [hstep]
    by_cases hc : f.1 s.name = true
    · rw [if_pos hc, ih]
    · rw [if_neg hc, ih]

theorem lastMatch_none {name : PyStr} :
    ∀ (fixes : List ((PyStr → Bool) × Rat × Rat)),
    (∀ f ∈ fixes, f.1 name = false) → lastMatch name fixes = none := by
  intro fixes
  induction fixes with
  | nil => intro _; rfl
  | cons f rest ih =>
    intro h
    unfold lastMatch
    rw [ih (fun g hg => h g (List.mem_cons_of_mem f hg))]
    simp [h f (List.mem_cons_self f rest)]

theorem applyFixes_char : ∀ (fixes : List ((PyStr → Bool) × Rat × Rat)) (s : Station),
    applyFixes fixes s = (match lastMatch s.name fixes with
      | none => s
      | some c => { s with latitude := some c.1, longitude := some c.2 }) := by
  intro fixes
  induction fixes with
  | nil => intro s; rfl
  | cons f rest ih =>
    intro s
    have hstep : applyFixes (f :: rest) s = applyFixes rest
        (if f.1 s.name then
          { s with latitude := some f.2.1, longitude := some f.2.2 } else s) := rfl
    rw [hstep]
    by_cases hc : f.1 s.name = true
    · rw [if_pos hc, ih]
      dsimp only
      cases hlm : lastMatch s.name rest with
      | some c =>
        have h2 : lastMatch s.name (f :: rest) = some c := by
          unfold lastMatch
          rw [hlm]
        rw [h2]
      | none =>
        have h2 : lastMatch s.name (f :: rest) = some f.2 := by
          unfold lastMatch
          rw [hlm]
          simp [hc]
        rw [h2]
    · rw [if_neg hc, ih]
      have h2 : lastMatch s.name (f :: rest) = lastMatch s.name rest := by
        have hdef : lastMatch s.name (f :: rest) = (match lastMatch s.name rest with
          | some c => some c
          | none => if f.1 s.name then some f.2 else none) := rfl
        rw [hdef]
        cases hlm : lastMatch s.name rest with
        | some c => rfl
        | none => simp [hc]
      rw [h2]

theorem applyFixes_idem (fixes : List ((PyStr → Bool) × Rat × Rat)) (s : Station) :
    applyFixes fixes (applyFixes fixes s) = applyFixes fixes s := by
  rw [applyFixes_char fixes (applyFixes fixes s), applyFixes_name]
  rw [applyFixes_char fixes s]
  cases hlm : lastMatch s.name fixes with
  | none => rfl
  | some c => rfl

theorem coordFixesFold_eq_map :
    ∀ (fixes : List ((PyStr → Bool) × Rat × Rat)) (acc : List Station × List Nat),
    ((fixes.foldl (fun (acc : List Station × List Nat) fix =>
      let u := updateCount (fun s => fix.1 s.name)
        (fun s => { s with latitude := some fix.2.1, longitude := some fix.2.2 }) acc.1
      (u.1, acc.2 ++ [u.2])) acc).1) = acc.1.map (applyFixes fixes) := by
  intro fixes
  induction fixes with
  | nil =>
    intro acc
    symm
    exact map_id_of _ _ (fun s _ => rfl)
  | cons f rest ih =>
    intro acc
    rw [List.foldl_cons, ih]
    show (acc.1.map (fun x => if f.1 x.name then
        { x with latitude := some f.2.1, longitude := some f.2.2 } else x)).map
          (applyFixes rest)
      = acc.1.map (applyFixes (f :: rest))
    rw [List.map_map]
    exact List.map_congr_left (fun s _ => rfl)

theorem coordFixesRun_eq_map (l : List Station) :
    (coordFixesRun l).1 = l.map (applyFixes coordFixes) :=
  coordFixesFold_eq_map coordFixes (l, [])

theorem coordsUpd_cl (newName : PyStr) (lat lon : Rat) (l : List Station) :
    ∀ s ∈ (updateCount (fun s => s.name == newName)
      (fun s => { s with latitude := some lat, longitude := some lon }) l).1,
      s.name = newName → s.latitude = some lat ∧ s.longitude = some lon := by
  intro s hs
  obtain ⟨t, ht, hte⟩ := List.mem_map.mp hs
  by_cases hc : (t.name == newName) = true
  · rw [← hte, if_pos hc]
    intro _
    exact ⟨rfl, rfl⟩
  · rw [← hte, if_neg hc]
    intro hname
    exact absurd (beq_iff_eq.mpr hname) hc

theorem rangoonFold_no_india :
    ∀ (l : List Nat) (anchor : Option Nat) (st : MergeState),
    (∀ s ∈ st.stations, startsWith (pyLower s.name) (lit "india (british burma)") = true →
      s.station_id ∈ l) →
    ∀ s ∈ (l.foldl (rangoonMergeStep anchor) st).stations,
      startsWith (pyLower s.name) (lit "india (british burma)") = false := by
  intro l
  induction l with
  | nil =>
    intro anchor st h s hs
    by_cases hc : startsWith (pyLower s.name) (lit "india (british burma)") = true
    · exact absurd (h s hs hc) (List.not_mem_nil _)
    · simpa using hc
  | cons o rest ih =>
    intro anchor st h
    rw [List.foldl_cons]
    apply ih
    intro s hs hc
    cases anchor with
    | some rid =>
      have he : (rangoonMergeStep (some rid) st o).stations
          = st.stations.filter (fun s => s.station_id != o) := rfl
      rw [he] at hs
      have hsm := (List.mem_filter.mp hs).1
      have hso := bne_iff_ne.mp (List.mem_filter.mp hs).2
      rcases List.mem_cons.mp (h s hsm hc) with h1 | h1
      · exact absurd h1 hso
      · exact h1
    | none =>
      have he : (rangoonMergeStep none st o).stations = st.stations.map
          (fun s => if s.station_id = o then { s with name := lit "Rangoon" } else s) := rfl
      rw [he] at hs
      obtain ⟨t, ht, hte⟩ := List.mem_map.mp hs
      by_cases hcase : t.station_id = o
      · rw [← hte, if_pos hcase] at hc
        have hc2 : startsWith (pyLower (lit "Rangoon")) (lit "india (british burma)") = true := hc
        exact absurd hc2 (by decide)
      · rw [← hte, if_neg hcase] at hc ⊢
        rcases List.mem_cons.mp (h t ht hc) with h1 | h1
        · exact absurd h1 hcase
        · exact h1

theorem rangoonMergeStations_no_india (stations : List Station) (reports : List Report) :
    ∀ s ∈ (rangoonMergeStations stations reports).stations,
      startsWith (pyLower s.name) (lit "india (british burma)") = false := by
  unfold rangoonMergeStations
  apply rangoonFold_no_india
  intro s hs hc
  exact List.mem_map_of_mem _ (List.mem_filter.mpr ⟨hs, hc⟩)

theorem rangoonMergeStations_id (stations : List Station) (reports : List Report)
    (h : ∀ s ∈ stations, startsWith (pyLower s.name) (lit "india (british burma)") = false) :
    rangoonMergeStations stations reports = ⟨stations, reports, [], []⟩ := by
  unfold rangoonMergeStations
  have hfe : stations.filter
      (fun s => startsWith (pyLower s.name) (lit "india (british burma)")) = [] :=
    List.filter_eq_nil_iff.mpr (fun s hs => by simp [h s hs])
  rw [hfe]
  rfl

theorem names_pres_map {Q : PyStr → Prop} {g : Station → Station}
    (hg : ∀ s, (g s).name = s.name) {l : List Station}
    (h : ∀ s ∈ l, Q s.name) : ∀ s ∈ l.map g, Q s.name := by
  intro s hs
  obtain ⟨t, ht, hte⟩ := List.mem_map.mp hs
  rw [← hte, hg]
  exact h t ht

theorem coordSetter_name (nm : PyStr) (lat lon : Rat) (s : Station) :
    (if s.name == nm then { s with latitude := some lat, longitude := some lon } else s).name
      = s.name := by
  by_cases hc : (s.name == nm) = true
  · rw [if_pos hc]
  · rw [if_neg hc]

theorem station_set_id {s : Station} {a b : Rat}
    (h1 : s.latitude = some a) (h2 : s.longitude = some b) :
    ({ s with latitude := some a, longitude := some b } : Station) = s := by
  cases s with
  | mk i n la lo =>
    simp only at h1 h2
    rw [← h1, ← h2]

theorem condsFold_id {newName : PyStr} :
    ∀ (conds : List (PyStr → Bool)) (cs : CoordsState),
    (∀ c ∈ conds, ∀ s ∈ cs.stations, (c s.name && s.name != newName) = false) →
    conds.foldl (fun cs cond => coordsCond newName cond cs) cs = cs := by
  intro conds
  induction conds with
  | nil => intro cs _; rfl
  | cons c0 rest ih =>
    intro cs h
    rw [List.foldl_cons]
    have hcond : coordsCond newName c0 cs = cs := by
      unfold coordsCond
      have hfe : cs.stations.filter (fun s => c0 s.name && s.name != newName) = [] :=
        List.filter_eq_nil_iff.mpr (fun s hs => by
          simp [h c0 (List.mem_cons_self c0 rest) s hs])
      rw [hfe]
      rfl
    rw [hcond]
    exact ih cs (fun c hc => h c (List.mem_cons_of_mem c0 hc))

theorem coordFixes_sitabaldi_false : ∀ f ∈ coordFixes, f.1 sitabaldiName = false := by
  decide

set_option maxHeartbeats 1600000 in
theorem passStations_shape (db : DB) :
    (runPass db).db.stations
      = ((scLoopState sitabaldiConds sitabaldiName (rangoonPhase db)).stations.map
          (fun s => if s.name == sitabaldiName then
            { s with latitude := some (21.1430 : Rat), longitude := some (79.0871 : Rat) }
            else s)).map (applyFixes coordFixes) := by
  have h1 : (runPass db).db.stations = (coordFixesRun
      (set_coords sitabaldiConds sitabaldiName 21.1430 79.0871
        (rangoonPhase db)).db.stations).1 := rfl
  rw [h1, coordFixesRun_eq_map, set_coords_db_stations]

theorem passStations_no_india (db : DB) :
    ∀ s ∈ (runPass db).db.stations,
      startsWith (pyLower s.name) (lit "india (british burma)") = false := by
  have step1 := @scCondsFold_name_pres sitabaldiName
    (fun nm => startsWith (pyLower nm) (lit "india (british burma)") = false)
    (by decide) sitabaldiConds
    ⟨(rangoonPhase db).stations, (rangoonPhase db).station_reports,
      ((rangoonPhase db).stations.find? (fun s => s.name == sitabaldiName)).map
        Station.station_id, [], []⟩
    (rangoonMergeStations_no_india db.stations db.station_reports)
  have step2 := @names_pres_map
    (fun nm => startsWith (pyLower nm) (lit "india (british burma)") = false)
    (fun s => if s.name == sitabaldiName then
      { s with latitude := some (21.1430 : Rat), longitude := some (79.0871 : Rat) } else s)
    (fun s => coordSetter_name sitabaldiName 21.1430 79.0871 s) _ step1
  have step3 := @names_pres_map
    (fun nm => startsWith (pyLower nm) (lit "india (british burma)") = false)
    (applyFixes coordFixes) (applyFixes_name coordFixes) _ step2
  intro s hs
  rw [passStations_shape] at hs
  exact step3 s hs

theorem passStations_canonical (db : DB) :
    ∀ c ∈ sitabaldiConds, ∀ s ∈ (runPass db).db.stations,
      c s.name = true → s.name = sitabaldiName := by
  intro c hc
  have step1 := @scLoop_canonical_names sitabaldiName sitabaldiConds
    ⟨(rangoonPhase db).stations, (rangoonPhase db).station_reports,
      ((rangoonPhase db).stations.find? (fun s => s.name == sitabaldiName)).map
        Station.station_id, [], []⟩ c hc
  have step2 := @names_pres_map
    (fun nm => c nm = true → nm = sitabaldiName)
    (fun s => if s.name == sitabaldiName then
      { s with latitude := some (21.1430 : Rat), longitude := some (79.0871 : Rat) } else s)
    (fun s => coordSetter_name sitabaldiName 21.1430 79.0871 s) _ step1
  have step3 := @names_pres_map
    (fun nm => c nm = true → nm = sitabaldiName)
    (applyFixes coordFixes) (applyFixes_name coordFixes) _ step2
  intro s hs
  rw [passStations_shape] at hs
  exact step3 s hs

theorem passStations_cl (db : DB) :
    ∀ s ∈ (runPass db).db.stations, s.name = sitabaldiName →
      s.latitude = some (21.1430 : Rat) ∧ s.longitude = some (79.0871 : Rat) := by
  intro s hs hname
  rw [passStations_shape] at hs
  obtain ⟨t, ht, hte⟩ := List.mem_map.mp hs
  have htname : t.name = sitabaldiName := by
    rw [← hte, applyFixes_name] at hname
    exact hname
  have hnomatch : ∀ f ∈ coordFixes, f.1 t.name = false := by
    intro f hf
    rw [htname]
    exact coordFixes_sitabaldi_false f hf
  have hid : applyFixes coordFixes t = t := by
    rw [applyFixes_char, lastMatch_none coordFixes hnomatch]
  rw [← hte, hid]
  have hcl := coordsUpd_cl sitabaldiName 21.1430 79.0871
    (scLoopState sitabaldiConds sitabaldiName (rangoonPhase db)).stations t ht
  exact hcl htname

theorem passFacts_props (rows : List PyStr) :
    (∀ row ∈ (coordsFactFix sitabaldiConds sitabaldiName (rangoonFixTable rows).1).1,
      startsWith (pyLower row) (lit "india (british burma)") = false) ∧
    (∀ row ∈ (coordsFactFix sitabaldiConds sitabaldiName (rangoonFixTable rows).1).1,
      ∀ c ∈ sitabaldiConds, c row = true → row = sitabaldiName) := by
  constructor
  · exact @coordsFactFix_pres
      (fun row => startsWith (pyLower row) (lit "india (british burma)") = false)
      sitabaldiName (by decide) sitabaldiConds ((rangoonFixTable rows).1, [])
      (rangoonFixTable_no_india rows)
  · intro row hrow c hc
    exact coordsFactFix_canon sitabaldiConds ((rangoonFixTable rows).1, []) c hc row hrow

theorem DB.ext_of (a b : DB) (h1 : a.stations = b.stations)
    (h2 : a.station_reports = b.station_reports)
    (h3 : a.hospital_operations = b.hospital_operations)
    (h4 : a.women_admission = b.women_admission)
    (h5 : a.women_data = b.women_data)
    (h6 : a.troops = b.troops)
    (h7 : a.troop_data = b.troop_data) : a = b := by
  cases a
  cases b
  simp_all

theorem set_coords_db_ho (conds : List (PyStr → Bool)) (newName : PyStr)
    (lat lon : Rat) (db : DB) :
    (set_coords conds newName lat lon db).db.hospital_operations
      = (coordsFactFix conds newName db.hospital_operations).1 := rfl

theorem set_coords_db_wa (conds : List (PyStr → Bool)) (newName : PyStr)
    (lat lon : Rat) (db : DB) :
    (set_coords conds newName lat lon db).db.women_admission
      = (coordsFactFix conds newName db.women_admission).1 := rfl

theorem set_coords_db_wd (conds : List (PyStr → Bool)) (newName : PyStr)
    (lat lon : Rat) (db : DB) :
    (set_coords conds newName lat lon db).db.women_data
      = (coordsFactFix conds newName db.women_data).1 := rfl

theorem set_coords_db_tr (conds : List (PyStr → Bool)) (newName : PyStr)
    (lat lon : Rat) (db : DB) :
    (set_coords conds newName lat lon db).db.troops
      = (coordsFactFix conds newName db.troops).1 := rfl

theorem set_coords_db_td (conds : List (PyStr → Bool)) (newName : PyStr)
    (lat lon : Rat) (db : DB) :
    (set_coords conds newName lat lon db).db.troop_data
      = (coordsFactFix conds newName db.troop_data).1 := rfl

theorem rangoonPhase_ho (db : DB) :
    (rangoonPhase db).hospital_operations = (rangoonFixTable db.hospital_operations).1 := rfl

theorem rangoonPhase_wa (db : DB) :
    (rangoonPhase db).women_admission = (rangoonFixTable db.women_admission).1 := rfl

theorem rangoonPhase_wd (db : DB) :
    (rangoonPhase db).women_data = (rangoonFixTable db.women_data).1 := rfl

theorem rangoonPhase_tr (db : DB) :
    (rangoonPhase db).troops = (rangoonFixTable db.troops).1 := rfl

theorem rangoonPhase_td (db : DB) :
    (rangoonPhase db).troop_data = (rangoonFixTable db.troop_data).1 := rfl

theorem runPass_db_ho (db : DB) :
    (runPass db).db.hospital_operations
      = (coordsFactFix sitabaldiConds sitabaldiName
          (rangoonFixTable db.hospital_operations).1).1 := by
  rw [runPass_db db]
  show (set_coords sitabaldiConds sitabaldiName 21.1430 79.0871
    (rangoonPhase db)).db.hospital_operations = _
  rw [set_coords_db_ho, rangoonPhase_ho]

theorem runPass_db_wa (db : DB) :
    (runPass db).db.women_admission
      = (coordsFactFix sitabaldiConds sitabaldiName
          (rangoonFixTable db.women_admission).1).1 := by
  rw [runPass_db db]
  show (set_coords sitabaldiConds sitabaldiName 21.1430 79.0871
    (rangoonPhase db)).db.women_admission = _
  rw [set_coords_db_wa, rangoonPhase_wa]

theorem runPass_db_wd (db : DB) :
    (runPass db).db.women_data
      = (coordsFactFix sitabaldiConds sitabaldiName
          (rangoonFixTable db.women_data).1).1 := by
  rw [runPass_db db]
  show (set_coords sitabaldiConds sitabaldiName 21.1430 79.0871
    (rangoonPhase db)).db.women_data = _
  rw [set_coords_db_wd, rangoonPhase_wd]

theorem runPass_db_tr (db : DB) :
    (runPass db).db.troops
      = (coordsFactFix sitabaldiConds sitabaldiName
          (rangoonFixTable db.troops).1).1 := by
  rw [runPass_db db]
  show (set_coords sitabaldiConds sitabaldiName 21.1430 79.0871
    (rangoonPhase db)).db.troops = _
  rw [set_coords_db_tr, rangoonPhase_tr]

theorem runPass_db_td (db : DB) :
    (runPass db).db.troop_data
      = (coordsFactFix sitabaldiConds sitabaldiName
          (rangoonFixTable db.troop_data).1).1 := by
  rw [runPass_db db]
  show (set_coords sitabaldiConds sitabaldiName 21.1430 79.0871
    (rangoonPhase db)).db.troop_data = _
  rw [set_coords_db_td, rangoonPhase_td]

theorem map_map_applyFixes (fixes : List ((PyStr → Bool) × Rat × Rat)) (L : List Station) :
    (L.map (applyFixes fixes)).map (applyFixes fixes) = L.map (applyFixes fixes) := by
  rw [List.map_map]
  exact List.map_congr_left (fun s _ => applyFixes_idem fixes _)

theorem map_applyFixes_idem (L : List Station) :
    (coordFixesRun (L.map (applyFixes coordFixes))).1
      = L.map (applyFixes coordFixes) :=
  (coordFixesRun_eq_map _).trans (map_map_applyFixes coordFixes L)

set_option maxHeartbeats 1600000 in
theorem runPass_step4_id (db : DB) :
    (coordFixesRun (runPass db).db.stations).1 = (runPass db).db.stations :=
  (congrArg (fun x => (coordFixesRun x).1) (passStations_shape db)).trans
    ((map_applyFixes_idem _).trans (passStations_shape db).symm)

set_option maxHeartbeats 1600000 in
/-- C8 (amended): the database state reached by the update pass is a fixed
point of the pass — running the pass a second time changes nothing in the
database.  (The second run's reported rowcounts are NOT all zero, see the
counterexample: the coordinate and fact-table updates re-match rows that
already carry canonical values.) -/
theorem c8_pass_state_idempotent_amended (db : DB) :
    (runPass ((runPass db).db)).db = (runPass db).db := by
  have hms : rangoonMergeStations (runPass db).db.stations (runPass db).db.station_reports
      = ⟨(runPass db).db.stations, (runPass db).db.station_reports, [], []⟩ :=
    rangoonMergeStations_id _ _ (passStations_no_india db)
  have hfixho : rangoonFixTable (runPass db).db.hospital_operations
      = ((runPass db).db.hospital_operations, 0) :=
    rangoonFixTable_id _ (by
      rw [runPass_db_ho db]
      exact (passFacts_props db.hospital_operations).1)
  have hfixwa : rangoonFixTable (runPass db).db.women_admission
      = ((runPass db).db.women_admission, 0) :=
    rangoonFixTable_id _ (by
      rw [runPass_db_wa db]
      exact (passFacts_props db.women_admission).1)
  have hfixwd : rangoonFixTable (runPass db).db.women_data
      = ((runPass db).db.women_data, 0) :=
    rangoonFixTable_id _ (by
      rw [runPass_db_wd db]
      exact (passFacts_props db.women_data).1)
  have hfixtr : rangoonFixTable (runPass db).db.troops
      = ((runPass db).db.troops, 0) :=
    rangoonFixTable_id _ (by
      rw [runPass_db_tr db]
      exact (passFacts_props db.troops).1)
  have hfixtd : rangoonFixTable (runPass db).db.troop_data
      = ((runPass db).db.troop_data, 0) :=
    rangoonFixTable_id _ (by
      rw [runPass_db_td db]
      exact (passFacts_props db.troop_data).1)
  have hA : rangoonPhase (runPass db).db = (runPass db).db := by
    unfold rangoonPhase
    rw [hms, hfixho, hfixwa, hfixwd, hfixtr, hfixtd]
  have hcondfalse : ∀ c ∈ sitabaldiConds, ∀ s ∈ (runPass db).db.stations,
      (c s.name && s.name != sitabaldiName) = false := by
    intro c hc s hs
    by_cases hcn : c s.name = true
    · have hname := passStations_canonical db c hc s hs hcn
      rw [hcn, hname]
      simp
    · have hf : c s.name = false := by simpa using hcn
      rw [hf]
      rfl
  have hloop : scLoopState sitabaldiConds sitabaldiName (runPass db).db
      = ⟨(runPass db).db.stations, (runPass db).db.station_reports,
          ((runPass db).db.stations.find? (fun s => s.name == sitabaldiName)).map
            Station.station_id, [], []⟩ := by
    unfold scLoopState
    exact condsFold_id sitabaldiConds _ (fun c hc s hs => hcondfalse c hc s hs)
  have hupd : ((runPass db).db.stations.map (fun s => if s.name == sitabaldiName then
      { s with latitude := some (21.1430 : Rat), longitude := some (79.0871 : Rat) }
      else s)) = (runPass db).db.stations :=
    map_id_of _ _ (fun s hs => by
      by_cases hc : (s.name == sitabaldiName) = true
      · rw [if_pos hc]
        obtain ⟨h1, h2⟩ := passStations_cl db s hs (eq_of_beq hc)
        exact station_set_id h1 h2
      · rw [if_neg hc])
  have hsc2st : (set_coords sitabaldiConds sitabaldiName 21.1430 79.0871
      (runPass db).db).db.stations = (runPass db).db.stations := by
    rw [set_coords_db_stations, hloop]
    exact hupd
  have hsc2rp : (set_coords sitabaldiConds sitabaldiName 21.1430 79.0871
      (runPass db).db).db.station_reports = (runPass db).db.station_reports := by
    rw [set_coords_db_reports, hloop]
  have hsc2ho : (set_coords sitabaldiConds sitabaldiName 21.1430 79.0871
      (runPass db).db).db.hospital_operations = (runPass db).db.hospital_operations := by
    rw [set_coords_db_ho]
    exact coordsFactFix_id sitabaldiConds ((runPass db).db.hospital_operations, [])
      (fun row hrow c hc => by
        rw [runPass_db_ho db] at hrow
        exact (passFacts_props db.hospital_operations).2 row hrow c hc)
  have hsc2wa : (set_coords sitabaldiConds sitabaldiName 21.1430 79.0871
      (runPass db).db).db.women_admission = (runPass db).db.women_admission := by
    rw [set_coords_db_wa]
    exact coordsFactFix_id sitabaldiConds ((runPass db).db.women_admission, [])
      (fun row hrow c hc => by
        rw [runPass_db_wa db] at hrow
        exact (passFacts_props db.women_admission).2 row hrow c hc)
  have hsc2wd : (set_coords sitabaldiConds sitabaldiName 21.1430 79.0871
      (runPass db).db).db.women_data = (runPass db).db.women_data := by
    rw [set_coords_db_wd]
    exact coordsFactFix_id sitabaldiConds ((runPass db).db.women_data, [])
      (fun row hrow c hc => by
        rw [runPass_db_wd db] at hrow
        exact (passFacts_props db.women_data).2 row hrow c hc)
  have hsc2tr : (set_coords sitabaldiConds sitabaldiName 21.1430 79.0871
      (runPass db).db).db.troops = (runPass db).db.troops := by
    rw [set_coords_db_tr]
    exact coordsFactFix_id sitabaldiConds ((runPass db).db.troops, [])
      (fun row hrow c hc => by
        rw [runPass_db_tr db] at hrow
        exact (passFacts_props db.troops).2 row hrow c hc)
  have hsc2td : (set_coords sitabaldiConds sitabaldiName 21.1430 79.0871
      (runPass db).db).db.troop_data = (runPass db).db.troop_data := by
    rw [set_coords_db_td]
    exact coordsFactFix_id sitabaldiConds ((runPass db).db.troop_data, [])
      (fun row hrow c hc => by
        rw [runPass_db_td db] at hrow
        exact (passFacts_props db.troop_data).2 row hrow c hc)
  have hsc2 : (set_coords sitabaldiConds sitabaldiName 21.1430 79.0871 (runPass db).db).db
      = (runPass db).db :=
    DB.ext_of _ _ hsc2st hsc2rp hsc2ho hsc2wa hsc2wd hsc2tr hsc2td
  have hs4 : (coordFixesRun (runPass db).db.stations).1 = (runPass db).db.stations :=
    runPass_step4_id db
  have final1 : (runPass ((runPass db).db)).db
      = { (runPass db).db with stations := (runPass db).db.stations } := by
    rw [runPass_db ((runPass db).db), hA, hsc2, hs4]
  have final2 : ({ (runPass db).db with stations := (runPass db).db.stations } : DB)
      = (runPass db).db :=
    DB.ext_of { (runPass db).db with stations := (runPass db).db.stations } ((runPass db).db)
      rfl rfl rfl rfl rfl rfl rfl
  exact final1.trans final2

/-- C8 counterexample: the second run of the pass does NOT report zero rows
affected.  On a database whose only station is 'Tonghoo', the step-4
Tonghoo coordinate UPDATE of every run matches that station again, so the
second run still reports one row affected there. -/
theorem c8_counterexample :
    (runPass ((runPass c8SampleDB).db)).step4Counts = [1, 0, 0, 0, 0, 0, 0] ∧
    (runPass ((runPass c8SampleDB).db)).step4Counts ≠ List.replicate 7 0 := by
  constructor
  · decide
  · decide

/-- C3 counterexample: the archive driver `standardize_data.py` performs
destructive writes (DROP TABLE, CREATE TABLE, INSERTs) yet its effect
trace contains no database-file copy at all, refuting "every script run
that performs a destructive operation copies the database file ... before
its first write". -/
theorem c3_counterexample :
    Event.dbWrite ∈ standardize_data_trace ∧
    Event.copyDbFile ∉ standardize_data_trace := by
  decide

/-- C3 (amended): `update_standardizations.py` does back up first: its
trace contains the `shutil.copy2` backup, the backup directory is created
before it, and no database write occurs at or before the copy — so the
copy completes before the first write, and a run aborted by a copy
failure has performed no write. -/
theorem c3_backup_before_write_amended :
    Event.copyDbFile ∈ update_standardizations_trace ∧
    Event.mkdirBackups ∈ update_standardizations_trace.take
      (update_standardizations_trace.indexOf Event.copyDbFile) ∧
    Event.dbWrite ∉ update_standardizations_trace.take
      (update_standardizations_trace.indexOf Event.copyDbFile + 1) := by
  decide

/-- C9: frame property of the drop-and-recreate standardization driver.
For every 19-cell `hospital_operations` row, the recreated row has 10
cells; its hid, doc_id, source_name, source_type, year and station cells
(positions 0-4 and 6) equal the original's; its region, country, act and
class cells (positions 5, 7, 8, 9) are exactly the original cells run
through the corresponding normalizer; and every `staff_` column of the
original schema is absent from the recreated schema. -/
theorem c9_drop_recreate_frame (row : List (Option PyStr)) (h : row.length = 19) :
    ((transformRow row).length = 10 ∧
      (transformRow row).getD 0 none = row.getD 0 none ∧
      (transformRow row).getD 1 none = row.getD 1 none ∧
      (transformRow row).getD 2 none = row.getD 2 none ∧
      (transformRow row).getD 3 none = row.getD 3 none ∧
      (transformRow row).getD 4 none = row.getD 4 none ∧
      (transformRow row).getD 6 none = row.getD 6 none) ∧
    ((transformRow row).getD 5 none
        = StandardizeData.standardize_region (row.getD 5 none) ∧
      (transformRow row).getD 7 none
        = StandardizeData.standardize_country (row.getD 7 none) ∧
      (transformRow row).getD 8 none
        = StandardizeData.standardize_act (row.getD 8 none) ∧
      (transformRow row).getD 9 none
        = StandardizeData.standardize_class (row.getD 9 none)) ∧
    (∀ c ∈ hospital_operations_columns,
      startsWith c (lit "staff_") = true → c ∉ recreated_columns) :=
  ⟨⟨rfl, rfl, rfl, rfl, rfl, rfl, rfl⟩, ⟨rfl, rfl, rfl, rfl⟩, by decide⟩

/-- Witness for C9 on a concrete 19-cell row. -/
theorem c9_witness :
    c9SampleRow.length = 19 ∧
    (((transformRow c9SampleRow).length = 10 ∧
      (transformRow c9SampleRow).getD 0 none = c9SampleRow.getD 0 none ∧
      (transformRow c9SampleRow).getD 1 none = c9SampleRow.getD 1 none ∧
      (transformRow c9SampleRow).getD 2 none = c9SampleRow.getD 2 none ∧
      (transformRow c9SampleRow).getD 3 none = c9SampleRow.getD 3 none ∧
      (transformRow c9SampleRow).getD 4 none = c9SampleRow.getD 4 none ∧
      (transformRow c9SampleRow).getD 6 none = c9SampleRow.getD 6 none) ∧
    ((transformRow c9SampleRow).getD 5 none
        = StandardizeData.standardize_region (c9SampleRow.getD 5 none) ∧
      (transformRow c9SampleRow).getD 7 none
        = StandardizeData.standardize_country (c9SampleRow.getD 7 none) ∧
      (transformRow c9SampleRow).getD 8 none
        = StandardizeData.standardize_act (c9SampleRow.getD 8 none) ∧
      (transformRow c9SampleRow).getD 9 none
        = StandardizeData.standardize_class (c9SampleRow.getD 9 none)) ∧
    (∀ c ∈ hospital_operations_columns,
      startsWith c (lit "staff_") = true → c ∉ recreated_columns)) :=
  ⟨rfl, c9_drop_recreate_frame c9SampleRow rfl⟩
